import Mathlib

/-!
# TinyRTOS (STM32F103) kernel core: a shallow embedding of `Core/Src/os.c`

The kernel data of `os.c` (the C globals and the one function-local static)
is one record `Kernel`; every C function is a pure function on that record.

* `tcbs[MAXTHREADS]` and the per-slot arrays are functions on `Fin 8`,
  `stacks[i]` is a function on `Fin 256`.
* A `TCB_t *` is `Option (Fin 8)`: `none` is `NULL`, `some i` is `&tcbs[i]`.
* Data pointers into `stacks` (`sp`) and code / string pointers are byte
  addresses in `Nat`, `0` being `NULL`.  The address of `stacks`, of
  `IdleTask` and of the literal `"Idle"` are link-time constants, gathered
  in `Layout`.
* `uint8_t priority` is `Fin 256`; the `uint8_t` counters that are
  incremented are `Nat` with an explicit `% 256`.
* `int ActiveThreads` is `Int`; its increment goes through `wrapInt`, the
  32-bit two's-complement result that the addition of the target leaves.
* `for (int i = 0; i < MAXTHREADS; i++)` is a left fold over `allSlots`.
* CPU and peripheral registers (interrupt mask, SysTick, NVIC, ICSR) are not
  kernel data and are not part of the record.
-/

namespace TinyRTOS

/-! ## Configuration (`os.h`, `os.c`) -/

def MAXTHREADS : Nat := 8
def STACKSIZE : Nat := 256
def STACK_CANARY : Nat := 0xDEADBEEF
def STACK_FILL_PATTERN : Nat := 0xA5A5A5A5

/-! ## Data model -/

/-- The enumeration `TCBStatus_t`. -/
inductive TCBStatus_t where
  | TCB_FREE
  | TCB_ACTIVE
  | TCB_SLEEPING
  deriving DecidableEq, Repr

open TCBStatus_t

/-- The structure `TCB_t`. -/
structure TCB_t where
  sp : Nat
  next : Option (Fin 8)
  status : TCBStatus_t
  priority : Fin 256
  sleep : Nat
  name : Nat
  deriving DecidableEq

/-- Link-time constants the kernel code refers to. -/
structure Layout where
  stacksAddr : Nat
  idleTaskAddr : Nat
  idleNameAddr : Nat
  deriving DecidableEq

/-- The kernel data: the globals of `os.c` and the static `tick_counter` of
`OS_TickHandler`. -/
structure Kernel where
  tcbs : Fin 8 → TCB_t
  stacksArr : Fin 8 → Fin 256 → Nat
  RunPt : Option (Fin 8)
  ActiveThreads : Int
  OS_Running : Nat
  stack_max_used : Fin 8 → Nat
  stack_overflow_count : Fin 8 → Nat
  tick_counter : Nat

/-- The indices visited by `for (int i = 0; i < MAXTHREADS; i++)`. -/
def allSlots : List (Fin 8) := [0, 1, 2, 3, 4, 5, 6, 7]

/-- The indices visited by `for (int i = 1; i < MAXTHREADS; i++)`. -/
def userSlots : List (Fin 8) := [1, 2, 3, 4, 5, 6, 7]

/-- Assignment to one member of `tcbs[i]`. -/
def setTCB (k : Kernel) (i : Fin 8) (f : TCB_t → TCB_t) : Kernel :=
  { k with tcbs := Function.update k.tcbs i (f (k.tcbs i)) }

/-- Assignment `stacks[i][j] = v`. -/
def setWord (st : Fin 8 → Fin 256 → Nat) (i : Fin 8) (j : Fin 256) (v : Nat) :
    Fin 8 → Fin 256 → Nat :=
  Function.update st i (Function.update (st i) j v)

/-- The byte address `&stacks[i][j]` (`j = 256` is one past the row). -/
def wordAddr (L : Layout) (i j : Nat) : Nat :=
  L.stacksAddr + 4 * (STACKSIZE * i + j)

/-- The store `*p = v` through a word pointer `p` into `stacks`. -/
def storeWord (L : Layout) (st : Fin 8 → Fin 256 → Nat) (p v : Nat) :
    Fin 8 → Fin 256 → Nat :=
  if h : L.stacksAddr ≤ p ∧ (p - L.stacksAddr) / 4 < 8 * 256 then
    setWord st ⟨(p - L.stacksAddr) / 4 / 256, by omega⟩
      ⟨(p - L.stacksAddr) / 4 % 256, by omega⟩ v
  else st

/-- The statement `*(--sp) = v` on the pair (stack memory, `sp`). -/
def push (L : Layout) (m : (Fin 8 → Fin 256 → Nat) × Nat) (v : Nat) :
    (Fin 8 → Fin 256 → Nat) × Nat :=
  (storeWord L m.1 (m.2 - 4) v, m.2 - 4)

/-- The sixteen words pushed by `SetInitialStack`, in push order. -/
def initialFrame (task : Nat) : List Nat :=
  [2 ^ 24, task, 0xFFFFFFFD, 0x12121212, 0x03030303, 0x02020202, 0x01010101,
   0x00000000, 0x11111111, 0x10101010, 0x09090909, 0x08080808, 0x07070707,
   0x06060606, 0x05050505, 0x04040404]

/-- `SetInitialStack(i, task)`. -/
def SetInitialStack (L : Layout) (k : Kernel) (i : Nat) (task : Nat) : Kernel :=
  if h : i < 8 then
    let row : Fin 8 := ⟨i, h⟩
    let filled : Fin 8 → Fin 256 → Nat :=
      Function.update k.stacksArr row (fun _ => STACK_FILL_PATTERN)
    let st0 := setWord filled row 0 STACK_CANARY
    let top := wordAddr L i STACKSIZE
    let sp0 := top - top % 8
    let m := (initialFrame task).foldl (push L) (st0, sp0)
    setTCB { k with stacksArr := m.1 } row (fun t => { t with sp := m.2 })
  else k

/-- `CheckStackOverflow(i)`. -/
def CheckStackOverflow (k : Kernel) (i : Nat) : Kernel :=
  if h : i < 8 then
    let row : Fin 8 := ⟨i, h⟩
    if (k.tcbs row).status = TCB_FREE then k
    else if k.stacksArr row 0 ≠ STACK_CANARY then
      let cnt := Function.update k.stack_overflow_count row
        ((k.stack_overflow_count row + 1) % 256)
      setTCB { k with stack_overflow_count := cnt } row (fun t => { t with status := TCB_FREE })
    else k
  else k

/-- The body of the first loop of `OS_Init`. -/
def initStep (k : Kernel) (i : Fin 8) : Kernel :=
  { k with
    tcbs := Function.update k.tcbs i
      { sp := 0, next := none, status := TCB_FREE, priority := 0, sleep := 0, name := 0 }
    stack_max_used := Function.update k.stack_max_used i 0
    stack_overflow_count := Function.update k.stack_overflow_count i 0 }

/-- `OS_Init()`. -/
def OS_Init (L : Layout) (k : Kernel) : Kernel :=
  let k1 := allSlots.foldl initStep k
  let k2 := SetInitialStack L k1 0 L.idleTaskAddr
  let k3 := setTCB k2 0 (fun t => { t with status := TCB_ACTIVE })
  let k4 := setTCB k3 0 (fun t => { t with priority := 255 })
  let k5 := setTCB k4 0 (fun t => { t with name := L.idleNameAddr })
  let k6 := setTCB k5 0 (fun t => { t with next := some 0 })
  let k7 := setTCB k6 0 (fun t => { t with sleep := 0 })
  { k7 with RunPt := some 0, ActiveThreads := 1, OS_Running := 0 }

/-- The value of a C `int` (32 bits, two's complement) after an arithmetic result `x`:
`x` itself from `INT_MIN` to `INT_MAX`, wrapped around outside.  Signed overflow is
undefined in ISO C; this is what the 32-bit addition of the target leaves. -/
def wrapInt (x : Int) : Int := (x + 2147483648) % 4294967296 - 2147483648

/-- The body of the `if (tcbs[i].status == TCB_FREE)` branch of `OS_AddThread`. -/
def addBody (L : Layout) (k : Kernel) (i : Fin 8) (task : Nat) (priority : Fin 256)
    (name : Nat) : Kernel :=
  let k1 := setTCB k i (fun t => { t with status := TCB_ACTIVE })
  let k2 := setTCB k1 i (fun t => { t with priority := priority })
  let k3 := setTCB k2 i (fun t => { t with sleep := 0 })
  let k4 := setTCB k3 i (fun t => { t with name := name })
  let k5 := SetInitialStack L k4 i task
  let k6 :=
    if k5.ActiveThreads = 1 then
      let a := setTCB k5 i (fun t => { t with next := some 0 })
      setTCB a 0 (fun t => { t with next := some i })
    else
      let a := setTCB k5 i (fun t => { t with next := (k5.tcbs 0).next })
      setTCB a 0 (fun t => { t with next := some i })
  { k6 with ActiveThreads := wrapInt (k6.ActiveThreads + 1) }

/-- The search loop of `OS_AddThread` over the remaining indices. -/
def addLoop (L : Layout) (k : Kernel) (task : Nat) (priority : Fin 256) (name : Nat) :
    List (Fin 8) → Kernel × Int
  | [] => (k, 0)
  | i :: rest =>
    if (k.tcbs i).status = TCB_FREE then (addBody L k i task priority name, 1)
    else addLoop L k task priority name rest

/-- `OS_AddThread(task, priority, name)`: the new kernel data and the result. -/
def OS_AddThread (L : Layout) (k : Kernel) (task : Nat) (priority : Fin 256)
    (name : Nat) : Kernel × Int :=
  if task = 0 then (k, 0)
  else addLoop L k task priority name userSlots

/-- `OS_Sleep(ms)`. -/
def OS_Sleep (k : Kernel) (ms : Nat) : Kernel :=
  match k.RunPt with
  | none => k
  | some r =>
    if k.OS_Running = 0 then k
    else
      let k1 := setTCB k r (fun t => { t with sleep := ms })
      setTCB k1 r (fun t => { t with status := if ms > 0 then TCB_SLEEPING else TCB_ACTIVE })

/-- The locals `best` and `best_priority` of `OS_Scheduler`. -/
structure Best where
  best : Option (Fin 8)
  best_priority : Fin 256
  deriving DecidableEq

/-- The body of the scan loop of `OS_Scheduler`. -/
def schedStep (k : Kernel) (b : Best) (i : Fin 8) : Best :=
  if (k.tcbs i).status = TCB_ACTIVE ∧ (k.tcbs i).sleep = 0 then
    if (k.tcbs i).priority < b.best_priority then
      { best := some i, best_priority := (k.tcbs i).priority }
    else if (k.tcbs i).priority = b.best_priority ∧ some i = k.RunPt then
      { b with best := some i }
    else b
  else b

/-- `OS_Scheduler()`. -/
def OS_Scheduler (k : Kernel) : Kernel :=
  if k.OS_Running = 0 ∨ k.RunPt = none then k
  else
    let b := allSlots.foldl (schedStep k) { best := none, best_priority := 255 }
    match b.best with
    | some i => { k with RunPt := some i }
    | none => { k with RunPt := some 0 }

/-- `OS_Launch(tick_hz)`, up to the hand-over to the external `StartOS`. -/
def OS_Launch (k : Kernel) : Kernel :=
  if k.ActiveThreads = 0 then k
  else OS_Scheduler { k with OS_Running := 1 }

/-- The body of the sleep-timer loop of `OS_TickHandler`. -/
def sleepStep (k : Kernel) (i : Fin 8) : Kernel :=
  if (k.tcbs i).status = TCB_SLEEPING ∧ (k.tcbs i).sleep > 0 then
    let k1 := setTCB k i (fun t => { t with sleep := t.sleep - 1 })
    if (k1.tcbs i).sleep = 0 then setTCB k1 i (fun t => { t with status := TCB_ACTIVE })
    else k1
  else k

/-- The body of the guard loop of `OS_TickHandler`. -/
def guardStep (k : Kernel) (i : Fin 8) : Kernel :=
  if (k.tcbs i).status ≠ TCB_FREE then CheckStackOverflow k i.val else k

/-- `OS_TickHandler()`. -/
def OS_TickHandler (k : Kernel) : Kernel :=
  if k.OS_Running = 0 then k
  else
    let k1 := allSlots.foldl sleepStep k
    let c := (k1.tick_counter + 1) % 256
    if c ≥ 100 then allSlots.foldl guardStep { k1 with tick_counter := 0 }
    else { k1 with tick_counter := c }

/-- A task (or anything else running on the core) stores `v` into `stacks[i][j]`. -/
def writeStack (k : Kernel) (i : Fin 8) (j : Fin 256) (v : Nat) : Kernel :=
  { k with stacksArr := setWord k.stacksArr i j v }

/-- The kernel data after C start-up: every global zero-initialised. -/
def boot : Kernel :=
  { tcbs := fun _ =>
      { sp := 0, next := none, status := TCB_FREE, priority := 0, sleep := 0, name := 0 }
    stacksArr := fun _ _ => 0
    RunPt := none
    ActiveThreads := 0
    OS_Running := 0
    stack_max_used := fun _ => 0
    stack_overflow_count := fun _ => 0
    tick_counter := 0 }

/-- The kernel states reachable from `OS_Init` by calls of the public
operations and by stores of tasks into stack words. -/
inductive Reachable (L : Layout) : Kernel → Prop where
  | init : Reachable L (OS_Init L boot)
  | addThread (k : Kernel) (task : Nat) (priority : Fin 256) (name : Nat) :
      Reachable L k → Reachable L (OS_AddThread L k task priority name).1
  | launch (k : Kernel) : Reachable L k → Reachable L (OS_Launch k)
  | sleep (k : Kernel) (ms : Nat) : Reachable L k → Reachable L (OS_Sleep k ms)
  | scheduler (k : Kernel) : Reachable L k → Reachable L (OS_Scheduler k)
  | tick (k : Kernel) : Reachable L k → Reachable L (OS_TickHandler k)
  | check (k : Kernel) (i : Nat) : Reachable L k → Reachable L (CheckStackOverflow k i)
  | write (k : Kernel) (i : Fin 8) (j : Fin 256) (v : Nat) :
      Reachable L k → Reachable L (writeStack k i j v)

/-! ## Predicates of the statements, proof-side views of the loops, sample states -/

/-- The kernel is running: `OS_Running` is set and `RunPt` is not `NULL`. -/
def Running (k : Kernel) : Prop := k.OS_Running ≠ 0 ∧ k.RunPt ≠ none

/-- A scheduler candidate: status Active and sleep count 0. -/
def Candidate (k : Kernel) (i : Fin 8) : Prop :=
  (k.tcbs i).status = TCB_ACTIVE ∧ (k.tcbs i).sleep = 0

instance (k : Kernel) : Decidable (Running k) := by unfold Running; infer_instance
instance (k : Kernel) (i : Fin 8) : Decidable (Candidate k i) := by
  unfold Candidate; infer_instance

/-- The scan result of `OS_Scheduler` on the whole table. -/
def scan (k : Kernel) : Best :=
  allSlots.foldl (schedStep k) { best := none, best_priority := 255 }

/-- Whenever `best` is set it names a candidate whose priority is `best_priority`. -/
def BestOK (k : Kernel) (b : Best) : Prop :=
  ∀ j, b.best = some j → Candidate k j ∧ (k.tcbs j).priority = b.best_priority

/-- A sample layout: `stacks` at the start of the STM32F103 SRAM. -/
def demoLayout : Layout :=
  { stacksAddr := 0x20000000, idleTaskAddr := 0x08000101, idleNameAddr := 0x08000200 }

/-- Three user tasks at priorities 5, 3, 3 in slots 1, 2, 3, kernel launched. -/
def demo533 : Kernel :=
  OS_Launch
    (OS_AddThread demoLayout
      (OS_AddThread demoLayout
        (OS_AddThread demoLayout (OS_Init demoLayout boot) 0x08001001 5 0x08000210).1
        0x08002001 3 0x08000220).1
      0x08003001 3 0x08000230).1

/-- What one pass of the sleep-timer loop does to one TCB. -/
def sleepTCB (t : TCB_t) : TCB_t :=
  if t.status = TCB_SLEEPING ∧ t.sleep > 0 then
    if t.sleep - 1 = 0 then { t with sleep := t.sleep - 1, status := TCB_ACTIVE }
    else { t with sleep := t.sleep - 1 }
  else t

/-- The guard retires a slot: it is not Free and its word 0 is not the canary. -/
def Retires (word0 : Nat) (t : TCB_t) : Prop :=
  t.status ≠ TCB_FREE ∧ word0 ≠ STACK_CANARY

instance (word0 : Nat) (t : TCB_t) : Decidable (Retires word0 t) := by
  unfold Retires; infer_instance

/-- What one guard pass does to one TCB, given word 0 of its stack. -/
def guardTCB (word0 : Nat) (t : TCB_t) : TCB_t :=
  if Retires word0 t then { t with status := TCB_FREE } else t

/-- What one guard pass does to one overflow counter. -/
def guardCount (word0 : Nat) (t : TCB_t) (c : Nat) : Nat :=
  if Retires word0 t then (c + 1) % 256 else c

/-- Slot 1 of a launched kernel, put to sleep for three ticks. -/
def demoSleep3 : Kernel :=
  OS_Sleep { demo533 with RunPt := some 1 } 3

/-- The aligned top of stack `i`: `&stacks[i][STACKSIZE]` rounded down to 8 bytes. -/
def frameTop (L : Layout) (i : Nat) : Nat :=
  wordAddr L i STACKSIZE - wordAddr L i STACKSIZE % 8

/-- The stack memory after `SetInitialStack(i, task)`. -/
def builtStacks (L : Layout) (st : Fin 8 → Fin 256 → Nat) (i : Fin 8) (task : Nat) :
    Fin 8 → Fin 256 → Nat :=
  ((initialFrame task).foldl (push L)
    (setWord (Function.update st i (fun _ => STACK_FILL_PATTERN)) i 0 STACK_CANARY,
      frameTop L i.val)).1

/-- The TCB that `OS_AddThread` writes into the slot it fills. -/
def newTCB (L : Layout) (k : Kernel) (i : Fin 8) (priority : Fin 256) (name : Nat) : TCB_t :=
  { sp := frameTop L i.val - 64
    next := if k.ActiveThreads = 1 then some 0 else (k.tcbs 0).next
    status := TCB_ACTIVE
    priority := priority
    sleep := 0
    name := name }

/-- The launched sample kernel after a task overwrote word 0 of stack 1. -/
def demoBroken : Kernel := writeStack demo533 1 0 0

/-- One retirement of slot 1: register a thread, overwrite its canary, run the guard. -/
def overflowCycle (k : Kernel) : Kernel :=
  CheckStackOverflow (writeStack (OS_AddThread demoLayout k 0x08001001 5 0x08000210).1 1 0 0) 1

/-- Slot 1 retired 255 times, registered once more and its canary overwritten again. -/
def wrapState : Kernel :=
  writeStack
    (OS_AddThread demoLayout (overflowCycle^[255] (OS_Launch (OS_Init demoLayout boot)))
      0x08001001 5 0x08000210).1 1 0 0

/-- The arguments of one `OS_AddThread` call. -/
structure AddArgs where
  task : Nat
  priority : Fin 256
  name : Nat

/-- Consecutive `OS_AddThread` calls: the final kernel data and the results in order. -/
def addThreads (L : Layout) (k : Kernel) : List AddArgs → Kernel × List Int
  | [] => (k, [])
  | a :: rest =>
    let r := OS_AddThread L k a.task a.priority a.name
    let r' := addThreads L r.1 rest
    (r'.1, r.2 :: r'.2)

/-- The status column of the table. -/
def statusOf (k : Kernel) : Fin 8 → TCBStatus_t := fun i => (k.tcbs i).status

/-- The search loop of `OS_AddThread` seen on the status column alone. -/
def absLoop (sv : Fin 8 → TCBStatus_t) : List (Fin 8) → (Fin 8 → TCBStatus_t) × Int
  | [] => (sv, 0)
  | i :: rest =>
    if sv i = TCB_FREE then (Function.update sv i TCB_ACTIVE, 1) else absLoop sv rest

/-- Consecutive registrations with non-null entry points, on the status column alone. -/
def absRun (sv : Fin 8 → TCBStatus_t) : Nat → List Int
  | 0 => []
  | n + 1 => (absLoop sv userSlots).2 :: absRun (absLoop sv userSlots).1 n

/-- The reference register frame, lowest address first: R4..R11, R0..R3, R12, LR, the
return address, the status word. -/
def refFrame (task : Nat) : List Nat :=
  [0x04040404, 0x05050505, 0x06060606, 0x07070707, 0x08080808, 0x09090909, 0x10101010,
   0x11111111, 0x00000000, 0x01010101, 0x02020202, 0x03030303, 0x12121212, 0xFFFFFFFD,
   task, 0x01000000]

/-- The reference stack image for top word index `T`: canary in word 0, the register
frame in words `T-16 .. T-1`, the fill pattern everywhere else. -/
def refImage (T : Nat) (task : Nat) (j : Fin 256) : Nat :=
  if j.val = 0 then 0xDEADBEEF
  else if T - 16 ≤ j.val ∧ j.val < T then (refFrame task).getD (j.val - (T - 16)) 0
  else 0xA5A5A5A5

/-- A second sample layout: `stacks` at an address that is 4 modulo 8. -/
def oddLayout : Layout :=
  { stacksAddr := 0x20000004, idleTaskAddr := 0x08000101, idleNameAddr := 0x08000200 }

/-- The kernel right after `OS_Init` and `OS_Launch`, word 0 of the idle stack
overwritten by a task. -/
def idleBroken : Kernel := writeStack (OS_Launch (OS_Init demoLayout boot)) 0 0 0

/-- The sample kernel after each of its three tasks went to sleep in turn. -/
def demoAllAsleep : Kernel :=
  OS_Sleep (OS_Scheduler (OS_Sleep (OS_Scheduler (OS_Sleep demo533 4)) 9)) 3

/-- Status and sleep count of a TCB agree: Sleeping has a positive countdown, Active has
countdown 0. -/
def SleepOK (t : TCB_t) : Prop :=
  (t.status = TCB_SLEEPING → 0 < t.sleep) ∧ (t.status = TCB_ACTIVE → t.sleep = 0)

/-- The sample kernel with slot 2 asleep and one tick gone by. -/
def demoTicked : Kernel := OS_TickHandler (OS_Sleep demo533 4)

/-- The step from `k` to `k'` retires no slot of `keep`: such a slot is Free afterwards
only if it was Free before. -/
def Spares (keep : Fin 8 → Prop) (k k' : Kernel) : Prop :=
  ∀ i, keep i → (k'.tcbs i).status = TCB_FREE → (k.tcbs i).status = TCB_FREE

/-- The kernel states reachable like `Reachable`, by runs in which no guard pass
(`OS_TickHandler`, `CheckStackOverflow`) retires a slot that `keep` names at that
moment. -/
inductive ReachableSparing (L : Layout) (keep : Kernel → Fin 8 → Prop) : Kernel → Prop where
  | init : ReachableSparing L keep (OS_Init L boot)
  | addThread (k : Kernel) (task : Nat) (priority : Fin 256) (name : Nat) :
      ReachableSparing L keep k →
      ReachableSparing L keep (OS_AddThread L k task priority name).1
  | launch (k : Kernel) : ReachableSparing L keep k → ReachableSparing L keep (OS_Launch k)
  | sleep (k : Kernel) (ms : Nat) :
      ReachableSparing L keep k → ReachableSparing L keep (OS_Sleep k ms)
  | scheduler (k : Kernel) :
      ReachableSparing L keep k → ReachableSparing L keep (OS_Scheduler k)
  | tick (k : Kernel) :
      ReachableSparing L keep k → Spares (keep k) k (OS_TickHandler k) →
      ReachableSparing L keep (OS_TickHandler k)
  | check (k : Kernel) (i : Nat) :
      ReachableSparing L keep k → Spares (keep k) k (CheckStackOverflow k i) →
      ReachableSparing L keep (CheckStackOverflow k i)
  | write (k : Kernel) (i : Fin 8) (j : Fin 256) (v : Nat) :
      ReachableSparing L keep k → ReachableSparing L keep (writeStack k i j v)

/-- The slots whose retirement breaks the `RunPt` invariant: the idle slot and the slot
`RunPt` refers to. -/
def idleOrRunning (k : Kernel) (i : Fin 8) : Prop := i = 0 ∨ k.RunPt = some i

/-- Every slot: runs without any guard retirement. -/
def anySlot (_ : Kernel) (_ : Fin 8) : Prop := True

/-- The idle slot is not Free and `RunPt` refers to a slot that is not Free. -/
def RunPtLive (k : Kernel) : Prop :=
  (k.tcbs 0).status ≠ TCB_FREE ∧ ∃ r, k.RunPt = some r ∧ (k.tcbs r).status ≠ TCB_FREE

/-- One user task at priority 5 registered and launched: `RunPt` is on slot 1. -/
def demoOne : Kernel :=
  OS_Launch (OS_AddThread demoLayout (OS_Init demoLayout boot) 0x08001001 5 0x08000210).1

/-- The running slot 1 of `demoOne` retired by the guard after a store into its canary. -/
def demoRunningRetired : Kernel := CheckStackOverflow (writeStack demoOne 1 0 0) 1

/-- A user task registered at priority 255 next to the idle task, kernel launched. -/
def demo255 : Kernel :=
  OS_Launch (OS_AddThread demoLayout (OS_Init demoLayout boot) 0x08001001 255 0x08000210).1

/-- The kernel `demo255` with the idle task asleep: slot 1 is the only candidate. -/
def demo255Only : Kernel := OS_Sleep demo255 7

/-- One step along the `next` link from a TCB pointer. -/
def ringNext (k : Kernel) (p : Option (Fin 8)) : Option (Fin 8) :=
  p.bind (fun i => (k.tcbs i).next)

/-- The ring links are consistent: following `next` from slot 0 comes back to slot 0
after at most `MAXTHREADS` steps and passes through every non-Free slot on the way. -/
def RingOK (k : Kernel) : Prop :=
  ∃ n, 1 ≤ n ∧ n ≤ MAXTHREADS ∧ (ringNext k)^[n] (some 0) = some 0 ∧
    ∀ i, (k.tcbs i).status ≠ TCB_FREE → ∃ m, m < n ∧ (ringNext k)^[m] (some 0) = some i

/-- Two user tasks registered, then the guard retires slot 1 after a store into its
canary. -/
def demoRetired1 : Kernel :=
  CheckStackOverflow
    (writeStack
      (OS_AddThread demoLayout
        (OS_AddThread demoLayout (OS_Init demoLayout boot) 0x08001001 5 0x08000210).1
        0x08002001 3 0x08000220).1
      1 0 0) 1

/-- A third task registered into the freed slot 1 of `demoRetired1`. -/
def demoReRegistered : Kernel :=
  (OS_AddThread demoLayout demoRetired1 0x08003001 4 0x08000230).1

/-- The state of the scan after the slots in `P` have been visited: `best_priority` is a
lower bound of their candidate priorities, and `best`, when set, is a candidate of that
priority which is either the running slot or the lowest-indexed such candidate in `P`. -/
def ScanInv (k : Kernel) (P : Fin 8 → Prop) (b : Best) : Prop :=
  (∀ c, P c → Candidate k c → b.best_priority ≤ (k.tcbs c).priority) ∧
  (∀ j, b.best = some j →
    P j ∧ Candidate k j ∧ (k.tcbs j).priority = b.best_priority ∧
    (k.RunPt = some j ∨
      ∀ c, P c → Candidate k c → (k.tcbs c).priority = b.best_priority → j ≤ c))

/-- The sample kernel after both priority-3 tasks slept for one tick and woke again:
the priority-5 slot 1 is running, slots 2 and 3 are candidates at priority 3. -/
def demoWoken : Kernel :=
  OS_TickHandler (OS_Scheduler (OS_Sleep (OS_Scheduler (OS_Sleep demo533 1)) 1))

/-- The kernel right after `OS_Init` with the thread count at `INT_MAX`. -/
def demoMaxThreads : Kernel :=
  { OS_Init demoLayout boot with ActiveThreads := 2147483647 }

/-! ## The scheduler scan -/

theorem mem_allSlots (i : Fin 8) : i ∈ allSlots := by
  revert i; decide

theorem schedStep_BestOK (k : Kernel) (b : Best) (i : Fin 8) (h : BestOK k b) :
    BestOK k (schedStep k b i) := by
  unfold schedStep
  split_ifs with hc hlt heq
  · intro j hj
    simp only [Option.some.injEq] at hj
    subst hj
    exact ⟨hc, rfl⟩
  · intro j hj
    simp only [Option.some.injEq] at hj
    subst hj
    exact ⟨hc, heq.1⟩
  · exact h
  · exact h

theorem fold_BestOK (k : Kernel) (l : List (Fin 8)) (b : Best) (h : BestOK k b) :
    BestOK k (l.foldl (schedStep k) b) := by
  induction l generalizing b with
  | nil => exact h
  | cons i rest ih => exact ih _ (schedStep_BestOK k b i h)

theorem schedStep_le (k : Kernel) (b : Best) (i : Fin 8) :
    (schedStep k b i).best_priority ≤ b.best_priority := by
  unfold schedStep
  split_ifs with hc hlt heq
  · exact le_of_lt hlt
  · exact le_refl _
  · exact le_refl _
  · exact le_refl _

theorem schedStep_le_self (k : Kernel) (b : Best) (i : Fin 8) (hc : Candidate k i) :
    (schedStep k b i).best_priority ≤ (k.tcbs i).priority := by
  have hc' : (k.tcbs i).status = TCB_ACTIVE ∧ (k.tcbs i).sleep = 0 := hc
  unfold schedStep
  rw [if_pos hc']
  split_ifs with hlt heq
  · exact le_refl _
  · exact le_of_not_lt hlt
  · exact le_of_not_lt hlt

theorem fold_le (k : Kernel) (l : List (Fin 8)) (b : Best) :
    (l.foldl (schedStep k) b).best_priority ≤ b.best_priority := by
  induction l generalizing b with
  | nil => exact le_refl _
  | cons i rest ih => exact le_trans (ih _) (schedStep_le k b i)

theorem fold_min (k : Kernel) (l : List (Fin 8)) (b : Best) (c : Fin 8) (hmem : c ∈ l)
    (hc : Candidate k c) :
    (l.foldl (schedStep k) b).best_priority ≤ (k.tcbs c).priority := by
  induction l generalizing b with
  | nil => cases hmem
  | cons i rest ih =>
    rcases List.mem_cons.mp hmem with h | h
    · subst h
      exact le_trans (fold_le k rest _) (schedStep_le_self k b c hc)
    · exact ih _ h

theorem schedStep_none (k : Kernel) (b : Best) (i : Fin 8)
    (h : (schedStep k b i).best = none) :
    b.best = none ∧ (schedStep k b i).best_priority = b.best_priority := by
  unfold schedStep at h ⊢
  by_cases hc : (k.tcbs i).status = TCB_ACTIVE ∧ (k.tcbs i).sleep = 0
  · rw [if_pos hc] at h ⊢
    by_cases hlt : (k.tcbs i).priority < b.best_priority
    · rw [if_pos hlt] at h
      cases h
    · rw [if_neg hlt] at h ⊢
      by_cases heq : (k.tcbs i).priority = b.best_priority ∧ some i = k.RunPt
      · rw [if_pos heq] at h
        cases h
      · rw [if_neg heq] at h ⊢
        exact ⟨h, rfl⟩
  · rw [if_neg hc] at h ⊢
    exact ⟨h, rfl⟩

theorem fold_none (k : Kernel) (l : List (Fin 8)) (b : Best)
    (h : (l.foldl (schedStep k) b).best = none) :
    b.best = none ∧ (l.foldl (schedStep k) b).best_priority = b.best_priority := by
  induction l generalizing b with
  | nil => exact ⟨h, rfl⟩
  | cons i rest ih =>
    have h1 := ih _ h
    have h2 := schedStep_none k b i h1.1
    exact ⟨h2.1, h1.2.trans h2.2⟩

/-- Once `best` is the running slot at the minimum priority, the rest of the scan keeps it. -/
theorem fold_keep (k : Kernel) (r : Fin 8) (hr : k.RunPt = some r)
    (hmin : ∀ c, Candidate k c → ¬ (k.tcbs c).priority < (k.tcbs r).priority)
    (l : List (Fin 8)) (b : Best) (hb : b.best = some r)
    (hp : b.best_priority = (k.tcbs r).priority) :
    (l.foldl (schedStep k) b).best = some r := by
  induction l generalizing b with
  | nil => exact hb
  | cons i rest ih =>
    simp only [List.foldl_cons]
    have key : (schedStep k b i).best = some r ∧
        (schedStep k b i).best_priority = (k.tcbs r).priority := by
      unfold schedStep
      by_cases hc : (k.tcbs i).status = TCB_ACTIVE ∧ (k.tcbs i).sleep = 0
      · rw [if_pos hc]
        have hnlt : ¬ (k.tcbs i).priority < b.best_priority := by
          rw [hp]; exact hmin i hc
        rw [if_neg hnlt]
        by_cases heq : (k.tcbs i).priority = b.best_priority ∧ some i = k.RunPt
        · rw [if_pos heq]
          have : i = r := by
            have h2 := heq.2
            rw [hr] at h2
            exact Option.some.inj h2
          subst this
          exact ⟨rfl, hp⟩
        · rw [if_neg heq]
          exact ⟨hb, hp⟩
      · rw [if_neg hc]
        exact ⟨hb, hp⟩
    exact ih _ key.1 key.2

/-- A scan that passes the running slot while it is a candidate of minimum priority
ends with `best` on it. -/
theorem fold_reach (k : Kernel) (r : Fin 8) (hr : k.RunPt = some r) (hcand : Candidate k r)
    (hmin : ∀ c, Candidate k c → ¬ (k.tcbs c).priority < (k.tcbs r).priority)
    (l : List (Fin 8)) (hmem : r ∈ l) (b : Best)
    (hb : (k.tcbs r).priority ≤ b.best_priority) :
    (l.foldl (schedStep k) b).best = some r := by
  induction l generalizing b with
  | nil => cases hmem
  | cons i rest ih =>
    simp only [List.foldl_cons]
    by_cases hir : i = r
    · subst hir
      have hc' : (k.tcbs i).status = TCB_ACTIVE ∧ (k.tcbs i).sleep = 0 := hcand
      apply fold_keep k i hr hmin
      · unfold schedStep
        rw [if_pos hc']
        by_cases hlt : (k.tcbs i).priority < b.best_priority
        · rw [if_pos hlt]
        · rw [if_neg hlt, if_pos ⟨le_antisymm hb (le_of_not_lt hlt), hr.symm⟩]
      · unfold schedStep
        rw [if_pos hc']
        by_cases hlt : (k.tcbs i).priority < b.best_priority
        · rw [if_pos hlt]
        · rw [if_neg hlt, if_pos ⟨le_antisymm hb (le_of_not_lt hlt), hr.symm⟩]
          exact (le_antisymm hb (le_of_not_lt hlt)).symm
    · have hmem' : r ∈ rest := by
        rcases List.mem_cons.mp hmem with h | h
        · exact absurd h.symm hir
        · exact h
      apply ih hmem'
      unfold schedStep
      by_cases hc : (k.tcbs i).status = TCB_ACTIVE ∧ (k.tcbs i).sleep = 0
      · rw [if_pos hc]
        by_cases hlt : (k.tcbs i).priority < b.best_priority
        · rw [if_pos hlt]
          exact le_of_not_lt (hmin i hc)
        · rw [if_neg hlt]
          by_cases heq : (k.tcbs i).priority = b.best_priority ∧ some i = k.RunPt
          · rw [if_pos heq]; exact hb
          · rw [if_neg heq]; exact hb
      · rw [if_neg hc]; exact hb

theorem OS_Scheduler_running (k : Kernel) (h : Running k) :
    OS_Scheduler k = { k with RunPt := some ((scan k).best.getD 0) } := by
  have h' : ¬ (k.OS_Running = 0 ∨ k.RunPt = none) := by
    rintro (h0 | h0)
    · exact h.1 h0
    · exact h.2 h0
  unfold OS_Scheduler
  rw [if_neg h']
  show (match (scan k).best with
    | some i => { k with RunPt := some i }
    | none => { k with RunPt := some 0 }) = _
  cases (scan k).best <;> rfl

theorem OS_Scheduler_tcbs (k : Kernel) : (OS_Scheduler k).tcbs = k.tcbs := by
  unfold OS_Scheduler
  split_ifs
  · rfl
  · dsimp only
    split <;> rfl

theorem scan_best_candidate (k : Kernel) (j : Fin 8) (h : (scan k).best = some j) :
    Candidate k j ∧ (k.tcbs j).priority = (scan k).best_priority :=
  fold_BestOK k allSlots _ (fun _ h0 => by cases h0) j h

/-- C1: in a running kernel whose idle slot 0 is Active with sleep count 0, the slot
`RunPt` refers to after `OS_Scheduler` is Active with sleep count 0, so the scheduler
never selects a Sleeping or a Free slot. -/
theorem C1_scheduler_selects_candidate (k : Kernel) (hrun : Running k)
    (hidle : (k.tcbs 0).status = TCB_ACTIVE ∧ (k.tcbs 0).sleep = 0) :
    ∃ i, (OS_Scheduler k).RunPt = some i ∧
      ((OS_Scheduler k).tcbs i).status = TCB_ACTIVE ∧
      ((OS_Scheduler k).tcbs i).sleep = 0 := by
  refine ⟨(scan k).best.getD 0, ?_, ?_⟩
  · rw [OS_Scheduler_running k hrun]
  · rw [OS_Scheduler_tcbs]
    cases hb : (scan k).best with
    | none => exact hidle
    | some j => exact (scan_best_candidate k j hb).1

theorem C1_scheduler_selects_candidate_witness :
    Running demo533 ∧
    ((demo533.tcbs 0).status = TCB_ACTIVE ∧ (demo533.tcbs 0).sleep = 0) ∧
    ∃ i, (OS_Scheduler demo533).RunPt = some i ∧
      ((OS_Scheduler demo533).tcbs i).status = TCB_ACTIVE ∧
      ((OS_Scheduler demo533).tcbs i).sleep = 0 :=
  ⟨by decide, by decide, C1_scheduler_selects_candidate demo533 (by decide) (by decide)⟩

/-- C2: in a running kernel whose idle slot 0 is Active and not sleeping, after
`OS_Scheduler` no candidate has a priority number strictly smaller than that of the
slot `RunPt` now refers to; in particular the previously running slot is displaced
whenever some candidate has a strictly smaller priority number than it. -/
theorem C2_scheduler_selects_minimum (k : Kernel) (hrun : Running k)
    (_hidle : (k.tcbs 0).status = TCB_ACTIVE ∧ (k.tcbs 0).sleep = 0) :
    ∃ i, (OS_Scheduler k).RunPt = some i ∧
      (∀ c, Candidate (OS_Scheduler k) c →
        ¬ ((OS_Scheduler k).tcbs c).priority < ((OS_Scheduler k).tcbs i).priority) ∧
      (∀ r c, k.RunPt = some r → Candidate k c →
        (k.tcbs c).priority < (k.tcbs r).priority → (OS_Scheduler k).RunPt ≠ some r) := by
  have hmin : ∀ c, Candidate k c →
      ¬ (k.tcbs c).priority < (k.tcbs ((scan k).best.getD 0)).priority := by
    intro c hc
    have h1 : (scan k).best_priority ≤ (k.tcbs c).priority :=
      fold_min k allSlots _ c (mem_allSlots c) hc
    cases hb : (scan k).best with
    | none =>
      have h2 := (fold_none k allSlots _ hb).2
      have h3 : (scan k).best_priority = 255 := h2
      rw [h3] at h1
      simp only [Option.getD_none]
      have := (k.tcbs 0).priority.isLt
      omega
    | some j =>
      have h2 := (scan_best_candidate k j hb).2
      simp only [Option.getD_some]
      rw [h2]
      exact not_lt_of_le h1
  refine ⟨(scan k).best.getD 0, ?_, ?_, ?_⟩
  · rw [OS_Scheduler_running k hrun]
  · intro c hc
    have hc' : Candidate k c := by
      unfold Candidate at hc ⊢
      rw [OS_Scheduler_tcbs] at hc
      exact hc
    rw [OS_Scheduler_tcbs]
    exact hmin c hc'
  · intro r c _ hc hlt hnew
    rw [OS_Scheduler_running k hrun] at hnew
    have : (scan k).best.getD 0 = r := Option.some.inj hnew
    rw [← this] at hlt
    exact hmin c hc hlt

theorem C2_scheduler_selects_minimum_witness :
    Running demo533 ∧
    ((demo533.tcbs 0).status = TCB_ACTIVE ∧ (demo533.tcbs 0).sleep = 0) ∧
    ∃ i, (OS_Scheduler demo533).RunPt = some i ∧
      (∀ c, Candidate (OS_Scheduler demo533) c →
        ¬ ((OS_Scheduler demo533).tcbs c).priority <
            ((OS_Scheduler demo533).tcbs i).priority) ∧
      (∀ r c, demo533.RunPt = some r → Candidate demo533 c →
        (demo533.tcbs c).priority < (demo533.tcbs r).priority →
        (OS_Scheduler demo533).RunPt ≠ some r) :=
  ⟨by decide, by decide, C2_scheduler_selects_minimum demo533 (by decide) (by decide)⟩

/-- C3: in a running kernel, when the slot `RunPt` refers to is a candidate and no
candidate has a strictly smaller priority number, `OS_Scheduler` leaves `RunPt` on that
slot, wherever the other candidates of equal priority sit. -/
theorem C3_running_slot_keeps_cpu (k : Kernel) (r : Fin 8) (hrun : k.OS_Running ≠ 0)
    (hr : k.RunPt = some r) (hcand : Candidate k r)
    (hmin : ∀ c, Candidate k c → ¬ (k.tcbs c).priority < (k.tcbs r).priority) :
    (OS_Scheduler k).RunPt = some r := by
  have hrunning : Running k := ⟨hrun, by rw [hr]; exact Option.some_ne_none r⟩
  rw [OS_Scheduler_running k hrunning]
  have hb : (scan k).best = some r :=
    fold_reach k r hr hcand hmin allSlots (mem_allSlots r) _
      (by
        have := (k.tcbs r).priority.isLt
        show (k.tcbs r).priority ≤ (255 : Fin 256)
        rw [Fin.le_def]
        show ((k.tcbs r).priority : Nat) ≤ 255
        omega)
  rw [hb]
  rfl

theorem C3_running_slot_keeps_cpu_witness :
    (demo533.RunPt = some 2 ∧ (OS_Scheduler demo533).RunPt = some 2) ∧
    ((OS_Scheduler { demo533 with RunPt := some 3 }).RunPt = some 3) ∧
    (demo533.tcbs 1).priority = 5 ∧ (demo533.tcbs 2).priority = 3 ∧
    (demo533.tcbs 3).priority = 3 :=
  ⟨⟨by decide, C3_running_slot_keeps_cpu demo533 2 (by decide) (by decide) (by decide)
      (by decide)⟩,
   C3_running_slot_keeps_cpu { demo533 with RunPt := some 3 } 3 (by decide) (by decide)
      (by decide) (by decide),
   by decide, by decide, by decide⟩

/-! ## The tick handler, slot by slot -/

theorem allSlots_nodup : allSlots.Nodup := by decide

theorem sleepStep_eq (k : Kernel) (j : Fin 8) :
    sleepStep k j = { k with tcbs := Function.update k.tcbs j (sleepTCB (k.tcbs j)) } := by
  unfold sleepStep sleepTCB setTCB
  by_cases h : (k.tcbs j).status = TCB_SLEEPING ∧ (k.tcbs j).sleep > 0
  · simp only [h, and_self, if_true, Function.update_same, Function.update_idem]
    by_cases h0 : (k.tcbs j).sleep - 1 = 0
    · simp only [h0, if_true]
    · simp only [h0, if_false]
  · simp only [h, if_false, Function.update_eq_self]

theorem guardStep_eq (k : Kernel) (j : Fin 8) :
    guardStep k j =
      { k with
        tcbs := Function.update k.tcbs j (guardTCB (k.stacksArr j 0) (k.tcbs j))
        stack_overflow_count := Function.update k.stack_overflow_count j
          (guardCount (k.stacksArr j 0) (k.tcbs j) (k.stack_overflow_count j)) } := by
  unfold guardStep CheckStackOverflow guardTCB guardCount Retires setTCB
  by_cases h : (k.tcbs j).status = TCB_FREE
  · simp [h]
  · by_cases h0 : k.stacksArr j 0 = STACK_CANARY
    · simp [h, h0]
    · simp [h, h0]

theorem foldl_sleepStep (l : List (Fin 8)) (hnd : l.Nodup) (k : Kernel) :
    l.foldl sleepStep k =
      { k with tcbs := fun i => if i ∈ l then sleepTCB (k.tcbs i) else k.tcbs i } := by
  induction l generalizing k with
  | nil => simp
  | cons j rest ih =>
    have hj : j ∉ rest := (List.nodup_cons.mp hnd).1
    rw [List.foldl_cons, ih (List.nodup_cons.mp hnd).2, sleepStep_eq]
    congr 1
    funext i
    by_cases hij : i = j
    · subst hij
      simp [hj]
    · simp [hij, Function.update_noteq hij]

theorem foldl_guardStep (l : List (Fin 8)) (hnd : l.Nodup) (k : Kernel) :
    l.foldl guardStep k =
      { k with
        tcbs := fun i => if i ∈ l then guardTCB (k.stacksArr i 0) (k.tcbs i) else k.tcbs i
        stack_overflow_count := fun i =>
          if i ∈ l then guardCount (k.stacksArr i 0) (k.tcbs i) (k.stack_overflow_count i)
          else k.stack_overflow_count i } := by
  induction l generalizing k with
  | nil => simp
  | cons j rest ih =>
    have hj : j ∉ rest := (List.nodup_cons.mp hnd).1
    rw [List.foldl_cons, ih (List.nodup_cons.mp hnd).2, guardStep_eq]
    congr 1
    · funext i
      by_cases hij : i = j
      · subst hij
        simp [hj]
      · simp [hij, Function.update_noteq hij]
    · funext i
      by_cases hij : i = j
      · subst hij
        simp [hj]
      · simp [hij, Function.update_noteq hij]

/-- The tick handler of a running kernel, slot by slot. -/
theorem OS_TickHandler_running (k : Kernel) (h : k.OS_Running ≠ 0) :
    OS_TickHandler k =
      if (k.tick_counter + 1) % 256 ≥ 100 then
        { k with
          tcbs := fun i => guardTCB (k.stacksArr i 0) (sleepTCB (k.tcbs i))
          stack_overflow_count := fun i =>
            guardCount (k.stacksArr i 0) (sleepTCB (k.tcbs i)) (k.stack_overflow_count i)
          tick_counter := 0 }
      else
        { k with
          tcbs := fun i => sleepTCB (k.tcbs i)
          tick_counter := (k.tick_counter + 1) % 256 } := by
  unfold OS_TickHandler
  rw [if_neg h]
  simp only [foldl_sleepStep allSlots allSlots_nodup, foldl_guardStep allSlots allSlots_nodup,
    mem_allSlots, if_true]

theorem OS_TickHandler_stopped (k : Kernel) (h : k.OS_Running = 0) :
    OS_TickHandler k = k := by
  unfold OS_TickHandler
  rw [if_pos h]

theorem OS_TickHandler_OS_Running (k : Kernel) :
    (OS_TickHandler k).OS_Running = k.OS_Running := by
  by_cases h : k.OS_Running = 0
  · rw [OS_TickHandler_stopped k h]
  · rw [OS_TickHandler_running k h]
    split_ifs <;> rfl

theorem OS_TickHandler_stacksArr (k : Kernel) :
    (OS_TickHandler k).stacksArr = k.stacksArr := by
  by_cases h : k.OS_Running = 0
  · rw [OS_TickHandler_stopped k h]
  · rw [OS_TickHandler_running k h]
    split_ifs <;> rfl

theorem guardTCB_intact (t : TCB_t) : guardTCB STACK_CANARY t = t := by
  simp [guardTCB, Retires]

/-- With its canary intact a slot only sees the sleep-timer pass of a tick. -/
theorem OS_TickHandler_tcbs_intact (k : Kernel) (i : Fin 8) (hrun : k.OS_Running ≠ 0)
    (hcan : k.stacksArr i 0 = STACK_CANARY) :
    (OS_TickHandler k).tcbs i = sleepTCB (k.tcbs i) := by
  rw [OS_TickHandler_running k hrun]
  split_ifs
  · show guardTCB (k.stacksArr i 0) (sleepTCB (k.tcbs i)) = _
    rw [hcan, guardTCB_intact]
  · rfl

/-- The state of a sleeping slot after `n` ticks, as long as the countdown lasts. -/
theorem ticks_sleeping (k : Kernel) (i : Fin 8) (hrun : k.OS_Running ≠ 0)
    (hs : (k.tcbs i).status = TCB_SLEEPING) (hcan : k.stacksArr i 0 = STACK_CANARY)
    (n : Nat) (hn : n < (k.tcbs i).sleep) :
    (OS_TickHandler^[n] k).OS_Running ≠ 0 ∧
    (OS_TickHandler^[n] k).stacksArr i 0 = STACK_CANARY ∧
    ((OS_TickHandler^[n] k).tcbs i).status = TCB_SLEEPING ∧
    ((OS_TickHandler^[n] k).tcbs i).sleep = (k.tcbs i).sleep - n := by
  induction n with
  | zero => exact ⟨hrun, hcan, hs, rfl⟩
  | succ m ih =>
    obtain ⟨h1, h2, h3, h4⟩ := ih (by omega)
    rw [Function.iterate_succ_apply']
    refine ⟨?_, ?_, ?_, ?_⟩
    · rw [OS_TickHandler_OS_Running]; exact h1
    · rw [OS_TickHandler_stacksArr]; exact h2
    · rw [OS_TickHandler_tcbs_intact _ i h1 h2]
      unfold sleepTCB
      rw [if_pos ⟨h3, by omega⟩, if_neg (by omega)]
      exact h3
    · rw [OS_TickHandler_tcbs_intact _ i h1 h2]
      unfold sleepTCB
      rw [if_pos ⟨h3, by omega⟩, if_neg (by omega)]
      show ((OS_TickHandler^[m] k).tcbs i).sleep - 1 = _
      omega

/-- C4: a slot that is Sleeping with countdown `K > 0` in a running kernel, its canary
intact, is still Sleeping with a non-zero countdown (so not a candidate) after each of
the first `K - 1` calls of `OS_TickHandler`, and is Active with sleep count 0 (a
candidate) after the `K`-th call. -/
theorem C4_sleep_countdown (k : Kernel) (i : Fin 8) (K : Nat) (hrun : k.OS_Running ≠ 0)
    (hs : (k.tcbs i).status = TCB_SLEEPING) (hK : (k.tcbs i).sleep = K) (hpos : 0 < K)
    (hcan : k.stacksArr i 0 = STACK_CANARY) :
    (∀ n, n < K →
      ((OS_TickHandler^[n] k).tcbs i).status = TCB_SLEEPING ∧
      ((OS_TickHandler^[n] k).tcbs i).sleep = K - n ∧
      0 < ((OS_TickHandler^[n] k).tcbs i).sleep ∧
      ¬ Candidate (OS_TickHandler^[n] k) i) ∧
    ((OS_TickHandler^[K] k).tcbs i).status = TCB_ACTIVE ∧
    ((OS_TickHandler^[K] k).tcbs i).sleep = 0 ∧
    Candidate (OS_TickHandler^[K] k) i := by
  subst hK
  constructor
  · intro n hn
    obtain ⟨_, _, h3, h4⟩ := ticks_sleeping k i hrun hs hcan n hn
    refine ⟨h3, h4, by omega, ?_⟩
    intro hc
    have := hc.1
    rw [h3] at this
    cases this
  · obtain ⟨h1, h2, h3, h4⟩ :=
      ticks_sleeping k i hrun hs hcan ((k.tcbs i).sleep - 1) (by omega)
    have hlast : (OS_TickHandler^[(k.tcbs i).sleep] k).tcbs i =
        sleepTCB ((OS_TickHandler^[(k.tcbs i).sleep - 1] k).tcbs i) := by
      have e : (k.tcbs i).sleep = ((k.tcbs i).sleep - 1) + 1 := by omega
      conv_lhs => rw [e, Function.iterate_succ_apply']
      exact OS_TickHandler_tcbs_intact _ i h1 h2
    have hst : (sleepTCB ((OS_TickHandler^[(k.tcbs i).sleep - 1] k).tcbs i)).status
          = TCB_ACTIVE ∧
        (sleepTCB ((OS_TickHandler^[(k.tcbs i).sleep - 1] k).tcbs i)).sleep = 0 := by
      unfold sleepTCB
      rw [if_pos ⟨h3, by omega⟩, if_pos (by omega)]
      exact ⟨rfl, by show _ - 1 = 0; omega⟩
    unfold Candidate
    rw [hlast]
    exact ⟨hst.1, hst.2, hst.1, hst.2⟩

theorem C4_sleep_countdown_witness :
    (∀ n, n < 3 →
      ((OS_TickHandler^[n] demoSleep3).tcbs 1).status = TCB_SLEEPING ∧
      ((OS_TickHandler^[n] demoSleep3).tcbs 1).sleep = 3 - n ∧
      0 < ((OS_TickHandler^[n] demoSleep3).tcbs 1).sleep ∧
      ¬ Candidate (OS_TickHandler^[n] demoSleep3) 1) ∧
    ((OS_TickHandler^[3] demoSleep3).tcbs 1).status = TCB_ACTIVE ∧
    ((OS_TickHandler^[3] demoSleep3).tcbs 1).sleep = 0 ∧
    Candidate (OS_TickHandler^[3] demoSleep3) 1 :=
  C4_sleep_countdown demoSleep3 1 3 (by decide) (by decide) (by decide) (by decide)
    (by decide)

/-! ## The operations as record updates -/

theorem foldl_push_snd (L : Layout) (l : List Nat) (m : (Fin 8 → Fin 256 → Nat) × Nat) :
    (l.foldl (push L) m).2 = m.2 - 4 * l.length := by
  induction l generalizing m with
  | nil => simp
  | cons v rest ih =>
    rw [List.foldl_cons, ih]
    simp only [push, List.length_cons]
    omega

theorem SetInitialStack_eq (L : Layout) (k : Kernel) (i : Fin 8) (task : Nat) :
    SetInitialStack L k i.val task =
      { k with
        tcbs := Function.update k.tcbs i { k.tcbs i with sp := frameTop L i.val - 64 }
        stacksArr := builtStacks L k.stacksArr i task } := by
  unfold SetInitialStack
  rw [dif_pos i.isLt]
  simp only [setTCB, foldl_push_snd, initialFrame, List.length_cons, List.length_nil, frameTop,
    builtStacks]

theorem SetInitialStack_out_of_range (L : Layout) (k : Kernel) (i task : Nat) (h : 8 ≤ i) :
    SetInitialStack L k i task = k := by
  unfold SetInitialStack
  rw [dif_neg (by omega)]

theorem addBody_eq (L : Layout) (k : Kernel) (i : Fin 8) (task : Nat) (priority : Fin 256)
    (name : Nat) :
    addBody L k i task priority name =
      { k with
        tcbs := Function.update (Function.update k.tcbs i (newTCB L k i priority name)) 0
          { Function.update k.tcbs i (newTCB L k i priority name) 0 with next := some i }
        stacksArr := builtStacks L k.stacksArr i task
        ActiveThreads := wrapInt (k.ActiveThreads + 1) } := by
  unfold addBody
  simp only [SetInitialStack_eq, setTCB, Function.update_same, Function.update_idem, newTCB]
  by_cases h1 : k.ActiveThreads = 1
  · simp only [h1, if_true]
  · simp only [h1, if_false]
    by_cases h0 : i = 0
    · subst h0
      simp only [Function.update_same]
    · rw [Function.update_noteq (Ne.symm h0)]

theorem addBody_tcbs (L : Layout) (k : Kernel) (i : Fin 8) (task : Nat) (priority : Fin 256)
    (name : Nat) (j : Fin 8) :
    ((addBody L k i task priority name).tcbs j).status =
        (if j = i then TCB_ACTIVE else (k.tcbs j).status) ∧
    ((addBody L k i task priority name).tcbs j).priority =
        (if j = i then priority else (k.tcbs j).priority) ∧
    ((addBody L k i task priority name).tcbs j).sleep =
        (if j = i then 0 else (k.tcbs j).sleep) := by
  rw [addBody_eq]
  by_cases hj0 : j = 0
  · subst hj0
    by_cases h0i : (0 : Fin 8) = i
    · subst h0i
      simp [newTCB]
    · simp [Function.update_noteq h0i, h0i]
  · by_cases hji : j = i
    · subst hji
      simp [Function.update_noteq hj0, newTCB]
    · simp [Function.update_noteq hj0, Function.update_noteq hji, hji]

theorem addBody_frame (L : Layout) (k : Kernel) (i : Fin 8) (task : Nat) (priority : Fin 256)
    (name : Nat) :
    (addBody L k i task priority name).RunPt = k.RunPt ∧
    (addBody L k i task priority name).ActiveThreads = wrapInt (k.ActiveThreads + 1) ∧
    (addBody L k i task priority name).OS_Running = k.OS_Running ∧
    (addBody L k i task priority name).stack_max_used = k.stack_max_used ∧
    (addBody L k i task priority name).stack_overflow_count = k.stack_overflow_count ∧
    (addBody L k i task priority name).tick_counter = k.tick_counter := by
  rw [addBody_eq]
  exact ⟨rfl, rfl, rfl, rfl, rfl, rfl⟩

/-- The search loop either fails and changes nothing, or runs the body on the first
Free slot of the list. -/
theorem addLoop_cases (L : Layout) (k : Kernel) (task : Nat) (priority : Fin 256)
    (name : Nat) (l : List (Fin 8)) :
    ((∀ i ∈ l, (k.tcbs i).status ≠ TCB_FREE) ∧ addLoop L k task priority name l = (k, 0)) ∨
    (∃ i ∈ l, (k.tcbs i).status = TCB_FREE ∧
      (∀ pre post, l = pre ++ i :: post → i ∉ pre → ∀ j ∈ pre, (k.tcbs j).status ≠ TCB_FREE) ∧
      addLoop L k task priority name l = (addBody L k i task priority name, 1)) := by
  induction l with
  | nil => exact Or.inl ⟨fun _ h => (by cases h), rfl⟩
  | cons a rest ih =>
    by_cases ha : (k.tcbs a).status = TCB_FREE
    · right
      refine ⟨a, List.mem_cons_self a rest, ha, ?_, ?_⟩
      · intro pre post hl hnot j hj
        cases pre with
        | nil => cases hj
        | cons p pre' =>
          simp only [List.cons_append, List.cons.injEq] at hl
          exact absurd (hl.1 ▸ List.mem_cons_self p pre') hnot
      · simp only [addLoop, ha, if_true]
    · rcases ih with ⟨h1, h2⟩ | ⟨i, hi, hfree, hpre, heq⟩
      · left
        refine ⟨?_, ?_⟩
        · intro i hi
          rcases List.mem_cons.mp hi with h | h
          · rw [h]; exact ha
          · exact h1 i h
        · simp only [addLoop, ha, if_false, h2]
      · right
        refine ⟨i, List.mem_cons_of_mem a hi, hfree, ?_, ?_⟩
        · intro pre post hl hnot j hj
          cases pre with
          | nil =>
            simp only [List.nil_append, List.cons.injEq] at hl
            exact absurd (hl.1 ▸ hfree) ha
          | cons p pre' =>
            simp only [List.cons_append, List.cons.injEq] at hl
            rcases List.mem_cons.mp hj with h | h
            · rw [h, ← hl.1]; exact ha
            · exact hpre pre' post hl.2 (fun hm => hnot (List.mem_cons_of_mem p hm)) j h
        · simp only [addLoop, ha, if_false, heq]

theorem mem_userSlots (i : Fin 8) : i ∈ userSlots ↔ i ≠ 0 := by
  revert i; decide

theorem CheckStackOverflow_eq (k : Kernel) (j : Fin 8) :
    CheckStackOverflow k j.val =
      { k with
        tcbs := Function.update k.tcbs j (guardTCB (k.stacksArr j 0) (k.tcbs j))
        stack_overflow_count := Function.update k.stack_overflow_count j
          (guardCount (k.stacksArr j 0) (k.tcbs j) (k.stack_overflow_count j)) } := by
  unfold CheckStackOverflow guardTCB guardCount Retires setTCB
  by_cases h : (k.tcbs j).status = TCB_FREE
  · simp [h]
  · by_cases h0 : k.stacksArr j 0 = STACK_CANARY
    · simp [h, h0]
    · simp [h, h0]

theorem CheckStackOverflow_out_of_range (k : Kernel) (i : Nat) (h : 8 ≤ i) :
    CheckStackOverflow k i = k := by
  unfold CheckStackOverflow
  rw [dif_neg (by omega)]

theorem OS_Scheduler_eq (k : Kernel) :
    OS_Scheduler k = { k with RunPt := (OS_Scheduler k).RunPt } := by
  unfold OS_Scheduler
  split_ifs
  · rfl
  · dsimp only
    split <;> rfl

theorem OS_Launch_eq (k : Kernel) :
    OS_Launch k = k ∨
    OS_Launch k = { k with OS_Running := 1, RunPt := (OS_Launch k).RunPt } := by
  unfold OS_Launch
  split_ifs
  · exact Or.inl rfl
  · right
    rw [OS_Scheduler_eq]

theorem OS_Sleep_eq (k : Kernel) (ms : Nat) :
    OS_Sleep k ms = { k with tcbs := (OS_Sleep k ms).tcbs } := by
  unfold OS_Sleep
  split
  · rfl
  · split_ifs <;> rfl

theorem OS_AddThread_cases (L : Layout) (k : Kernel) (task : Nat) (priority : Fin 256)
    (name : Nat) :
    OS_AddThread L k task priority name = (k, 0) ∨
    ∃ i, i ≠ 0 ∧ (k.tcbs i).status = TCB_FREE ∧
      OS_AddThread L k task priority name = (addBody L k i task priority name, 1) := by
  unfold OS_AddThread
  split_ifs with h
  · exact Or.inl rfl
  · rcases addLoop_cases L k task priority name userSlots with ⟨_, h2⟩ | ⟨i, hi, hf, _, h2⟩
    · exact Or.inl h2
    · exact Or.inr ⟨i, (mem_userSlots i).mp hi, hf, h2⟩

theorem OS_Init_counters (L : Layout) (k : Kernel) :
    (OS_Init L k).tick_counter = k.tick_counter ∧
    ∀ i, (OS_Init L k).stack_overflow_count i = 0 := by
  constructor
  · rfl
  · intro i
    fin_cases i <;> rfl

/-- The `uint8_t` counters stay in range: the tick counter below 100, every overflow
counter below 256. -/
theorem Reachable_counters (L : Layout) (k : Kernel) (h : Reachable L k) :
    k.tick_counter < 100 ∧ ∀ i, k.stack_overflow_count i < 256 := by
  induction h with
  | init =>
    refine ⟨?_, fun i => ?_⟩
    · rw [(OS_Init_counters L boot).1]; decide
    · rw [(OS_Init_counters L boot).2 i]; decide
  | addThread k task priority name _ ih =>
    rcases OS_AddThread_cases L k task priority name with h | ⟨i, _, _, h⟩
    · rw [h]; exact ih
    · rw [h]
      obtain ⟨_, _, _, _, h5, h6⟩ := addBody_frame L k i task priority name
      exact ⟨by rw [h6]; exact ih.1, fun i => by rw [h5]; exact ih.2 i⟩
  | launch k _ ih =>
    rcases OS_Launch_eq k with h | h
    · rw [h]; exact ih
    · rw [h]; exact ih
  | sleep k ms _ ih => rw [OS_Sleep_eq]; exact ih
  | scheduler k _ ih => rw [OS_Scheduler_eq]; exact ih
  | tick k _ ih =>
    by_cases hrun : k.OS_Running = 0
    · rw [OS_TickHandler_stopped k hrun]; exact ih
    · rw [OS_TickHandler_running k hrun]
      split_ifs with hc
      · refine ⟨(by show (0 : Nat) < 100; omega), fun i => ?_⟩
        show guardCount _ _ _ < 256
        unfold guardCount
        have := ih.2 i
        split_ifs <;> omega
      · refine ⟨?_, ih.2⟩
        show (k.tick_counter + 1) % 256 < 100
        omega
  | check k i _ ih =>
    by_cases hi : i < 8
    · have := CheckStackOverflow_eq k ⟨i, hi⟩
      simp only at this
      rw [this]
      refine ⟨ih.1, fun j => ?_⟩
      show Function.update k.stack_overflow_count _ _ j < 256
      rw [Function.update_apply]
      have h1 := ih.2 j
      have h2 := ih.2 ⟨i, hi⟩
      unfold guardCount
      split_ifs <;> omega
    · rw [CheckStackOverflow_out_of_range k i (by omega)]; exact ih
  | write k i j v _ ih => exact ih

/-! ## The stack guard under ticks -/

theorem sleepTCB_status_free (t : TCB_t) :
    (sleepTCB t).status = TCB_FREE ↔ t.status = TCB_FREE := by
  unfold sleepTCB
  split_ifs with h1 h2
  · simp [h1.1]
  · exact Iff.rfl
  · exact Iff.rfl

theorem sleepTCB_of_free (t : TCB_t) (h : t.status = TCB_FREE) : sleepTCB t = t := by
  unfold sleepTCB
  rw [if_neg]
  rintro ⟨h1, _⟩
  rw [h] at h1
  cases h1

/-- A tick leaves a Free slot Free and its overflow counter unchanged. -/
theorem OS_TickHandler_free (k : Kernel) (i : Fin 8) (h : (k.tcbs i).status = TCB_FREE) :
    ((OS_TickHandler k).tcbs i).status = TCB_FREE ∧
    (OS_TickHandler k).stack_overflow_count i = k.stack_overflow_count i := by
  by_cases hrun : k.OS_Running = 0
  · rw [OS_TickHandler_stopped k hrun]; exact ⟨h, rfl⟩
  · rw [OS_TickHandler_running k hrun]
    have hnr : ¬ Retires (k.stacksArr i 0) (k.tcbs i) := fun hr => hr.1 h
    split_ifs
    · constructor
      · show (guardTCB (k.stacksArr i 0) (sleepTCB (k.tcbs i))).status = TCB_FREE
        rw [sleepTCB_of_free _ h, guardTCB, if_neg hnr]; exact h
      · show guardCount (k.stacksArr i 0) (sleepTCB (k.tcbs i)) _ = _
        rw [sleepTCB_of_free _ h, guardCount, if_neg hnr]
    · constructor
      · show (sleepTCB (k.tcbs i)).status = TCB_FREE
        rw [sleepTCB_of_free _ h]; exact h
      · rfl

theorem ticks_free (k : Kernel) (i : Fin 8) (h : (k.tcbs i).status = TCB_FREE) (m : Nat) :
    ((OS_TickHandler^[m] k).tcbs i).status = TCB_FREE ∧
    (OS_TickHandler^[m] k).stack_overflow_count i = k.stack_overflow_count i := by
  induction m with
  | zero => exact ⟨h, rfl⟩
  | succ m ih =>
    rw [Function.iterate_succ_apply']
    have := OS_TickHandler_free _ i ih.1
    exact ⟨this.1, this.2.trans ih.2⟩

/-- Ticks before the guard pass is due: the slot stays non-Free, its counter, the stack
words and the run flag stay as they are, the tick counter counts up. -/
theorem ticks_before_guard (k : Kernel) (i : Fin 8) (hrun : k.OS_Running ≠ 0)
    (hnf : (k.tcbs i).status ≠ TCB_FREE) (m : Nat) (hm : k.tick_counter + m < 100) :
    (OS_TickHandler^[m] k).OS_Running ≠ 0 ∧
    (OS_TickHandler^[m] k).stacksArr = k.stacksArr ∧
    (OS_TickHandler^[m] k).tick_counter = k.tick_counter + m ∧
    ((OS_TickHandler^[m] k).tcbs i).status ≠ TCB_FREE ∧
    (OS_TickHandler^[m] k).stack_overflow_count i = k.stack_overflow_count i := by
  induction m with
  | zero => exact ⟨hrun, rfl, rfl, hnf, rfl⟩
  | succ m ih =>
    obtain ⟨h1, h2, h3, h4, h5⟩ := ih (by omega)
    rw [Function.iterate_succ_apply', OS_TickHandler_running _ h1]
    have hlt : ¬ ((OS_TickHandler^[m] k).tick_counter + 1) % 256 ≥ 100 := by
      rw [h3]; omega
    rw [if_neg hlt]
    refine ⟨h1, h2, ?_, ?_, h5⟩
    · show ((OS_TickHandler^[m] k).tick_counter + 1) % 256 = _
      rw [h3]; omega
    · show (sleepTCB ((OS_TickHandler^[m] k).tcbs i)).status ≠ TCB_FREE
      rw [Ne, sleepTCB_status_free]; exact h4

/-- The tick on which the guard pass runs retires a non-Free slot with a broken canary. -/
theorem OS_TickHandler_guard (k : Kernel) (i : Fin 8) (hrun : k.OS_Running ≠ 0)
    (hc : k.tick_counter = 99) (hnf : (k.tcbs i).status ≠ TCB_FREE)
    (hbad : k.stacksArr i 0 ≠ STACK_CANARY) :
    ((OS_TickHandler k).tcbs i).status = TCB_FREE ∧
    (OS_TickHandler k).stack_overflow_count i = (k.stack_overflow_count i + 1) % 256 := by
  rw [OS_TickHandler_running k hrun]
  have hge : (k.tick_counter + 1) % 256 ≥ 100 := by rw [hc]
  rw [if_pos hge]
  have hr : Retires (k.stacksArr i 0) (sleepTCB (k.tcbs i)) :=
    ⟨by rw [Ne, sleepTCB_status_free]; exact hnf, hbad⟩
  constructor
  · show (guardTCB (k.stacksArr i 0) (sleepTCB (k.tcbs i))).status = TCB_FREE
    rw [guardTCB, if_pos hr]
  · show guardCount (k.stacksArr i 0) (sleepTCB (k.tcbs i)) _ = _
    rw [guardCount, if_pos hr]

/-- C5 (amended): in a running reachable kernel, a non-Free slot whose word 0 is not the
canary is Free after at most 100 further calls of `OS_TickHandler`, and its overflow
counter then is one more than before modulo 256 (exactly one more when it was below
255); it stays Free with that counter under every later run of ticks, and any single
tick on any state in which the slot is Free leaves its counter as it is. -/
theorem C5_guard_retires_within_100_ticks (L : Layout) (k : Kernel) (i : Fin 8)
    (hreach : Reachable L k) (hrun : k.OS_Running ≠ 0)
    (hnf : (k.tcbs i).status ≠ TCB_FREE) (hbad : k.stacksArr i 0 ≠ STACK_CANARY) :
    ∃ n, 1 ≤ n ∧ n ≤ 100 ∧
      (∀ m, n ≤ m →
        ((OS_TickHandler^[m] k).tcbs i).status = TCB_FREE ∧
        (OS_TickHandler^[m] k).stack_overflow_count i =
          (k.stack_overflow_count i + 1) % 256 ∧
        (k.stack_overflow_count i < 255 →
          (OS_TickHandler^[m] k).stack_overflow_count i = k.stack_overflow_count i + 1)) ∧
      (∀ k' : Kernel, (k'.tcbs i).status = TCB_FREE →
        ((OS_TickHandler k').tcbs i).status = TCB_FREE ∧
        (OS_TickHandler k').stack_overflow_count i = k'.stack_overflow_count i) := by
  have hc := (Reachable_counters L k hreach).1
  obtain ⟨h1, h2, h3, h4, h5⟩ :=
    ticks_before_guard k i hrun hnf (99 - k.tick_counter) (by omega)
  have hg := OS_TickHandler_guard (OS_TickHandler^[99 - k.tick_counter] k) i h1
    (by rw [h3]; omega) h4 (by rw [h2]; exact hbad)
  rw [← Function.iterate_succ_apply' OS_TickHandler, h5] at hg
  refine ⟨99 - k.tick_counter + 1, by omega, by omega, ?_, fun k' hk' => OS_TickHandler_free k' i hk'⟩
  intro m hm
  obtain ⟨d, rfl⟩ : ∃ d, m = d + (99 - k.tick_counter + 1) := ⟨m - (99 - k.tick_counter + 1), by omega⟩
  rw [Function.iterate_add_apply]
  have hf := ticks_free _ i hg.1 d
  refine ⟨hf.1, hf.2.trans hg.2, fun hlt => ?_⟩
  rw [hf.2, hg.2]
  omega

theorem Reachable_ticks (L : Layout) (k : Kernel) (h : Reachable L k) (n : Nat) :
    Reachable L (OS_TickHandler^[n] k) := by
  induction n with
  | zero => exact h
  | succ n ih =>
    rw [Function.iterate_succ_apply']
    exact Reachable.tick _ ih

theorem demo533_reachable : Reachable demoLayout demo533 :=
  Reachable.launch _ (Reachable.addThread _ _ _ _ (Reachable.addThread _ _ _ _
    (Reachable.addThread _ _ _ _ Reachable.init)))

theorem C5_guard_retires_within_100_ticks_witness :
    Reachable demoLayout demoBroken ∧ demoBroken.OS_Running ≠ 0 ∧
    (demoBroken.tcbs 1).status ≠ TCB_FREE ∧ demoBroken.stacksArr 1 0 ≠ STACK_CANARY ∧
    ∃ n, 1 ≤ n ∧ n ≤ 100 ∧
      (∀ m, n ≤ m →
        ((OS_TickHandler^[m] demoBroken).tcbs 1).status = TCB_FREE ∧
        (OS_TickHandler^[m] demoBroken).stack_overflow_count 1 =
          (demoBroken.stack_overflow_count 1 + 1) % 256 ∧
        (demoBroken.stack_overflow_count 1 < 255 →
          (OS_TickHandler^[m] demoBroken).stack_overflow_count 1 =
            demoBroken.stack_overflow_count 1 + 1)) ∧
      (∀ k' : Kernel, (k'.tcbs 1).status = TCB_FREE →
        ((OS_TickHandler k').tcbs 1).status = TCB_FREE ∧
        (OS_TickHandler k').stack_overflow_count 1 = k'.stack_overflow_count 1) :=
  ⟨Reachable.write _ _ _ _ demo533_reachable, by decide, by decide, by decide,
   C5_guard_retires_within_100_ticks demoLayout demoBroken 1
     (Reachable.write _ _ _ _ demo533_reachable) (by decide) (by decide) (by decide)⟩

/-- Registration into a Free slot 1 fills slot 1. -/
theorem OS_AddThread_slot1 (L : Layout) (k : Kernel) (task : Nat) (priority : Fin 256)
    (name : Nat) (ht : task ≠ 0) (hfree : (k.tcbs 1).status = TCB_FREE) :
    OS_AddThread L k task priority name = (addBody L k 1 task priority name, 1) := by
  unfold OS_AddThread
  rw [if_neg ht]
  show addLoop L k task priority name (1 :: [2, 3, 4, 5, 6, 7]) = _
  rw [addLoop, if_pos hfree]

theorem writeStack_word (k : Kernel) (i : Fin 8) (j : Fin 256) (v : Nat) :
    (writeStack k i j v).stacksArr i j = v := by
  simp [writeStack, setWord]

/-- Registering into a Free slot 1 and overwriting its canary leaves a non-Free slot 1
with a broken canary; run flag and overflow counters are as before. -/
theorem add_then_overwrite (k : Kernel) (hfree : (k.tcbs 1).status = TCB_FREE) :
    (writeStack (OS_AddThread demoLayout k 0x08001001 5 0x08000210).1 1 0 0).OS_Running
      = k.OS_Running ∧
    ((writeStack (OS_AddThread demoLayout k 0x08001001 5 0x08000210).1 1 0 0).tcbs 1).status
      ≠ TCB_FREE ∧
    (writeStack (OS_AddThread demoLayout k 0x08001001 5 0x08000210).1 1 0 0).stacksArr 1 0
      ≠ STACK_CANARY ∧
    (writeStack (OS_AddThread demoLayout k 0x08001001 5 0x08000210).1 1 0 0).stack_overflow_count
      = k.stack_overflow_count := by
  rw [OS_AddThread_slot1 demoLayout k _ _ _ (by decide) hfree]
  have hs := (addBody_tcbs demoLayout k 1 0x08001001 5 0x08000210 1).1
  obtain ⟨_, _, h3, _, h5, _⟩ := addBody_frame demoLayout k 1 0x08001001 5 0x08000210
  rw [if_pos rfl] at hs
  refine ⟨h3, ?_, ?_, h5⟩
  · show ((addBody demoLayout k 1 0x08001001 5 0x08000210).tcbs 1).status ≠ TCB_FREE
    rw [hs]; decide
  · rw [writeStack_word]; decide

theorem overflowCycle_step (k : Kernel) (hfree : (k.tcbs 1).status = TCB_FREE) :
    (overflowCycle k).OS_Running = k.OS_Running ∧
    ((overflowCycle k).tcbs 1).status = TCB_FREE ∧
    (overflowCycle k).stack_overflow_count 1 = (k.stack_overflow_count 1 + 1) % 256 := by
  obtain ⟨a1, a2, a3, a4⟩ := add_then_overwrite k hfree
  have hr : Retires
      ((writeStack (OS_AddThread demoLayout k 0x08001001 5 0x08000210).1 1 0 0).stacksArr 1 0)
      ((writeStack (OS_AddThread demoLayout k 0x08001001 5 0x08000210).1 1 0 0).tcbs 1) :=
    ⟨a2, a3⟩
  have he : overflowCycle k = _ := CheckStackOverflow_eq
    (writeStack (OS_AddThread demoLayout k 0x08001001 5 0x08000210).1 1 0 0) 1
  rw [he]
  refine ⟨a1, ?_, ?_⟩
  · simp only [Function.update_same]
    rw [guardTCB, if_pos hr]
  · simp only [Function.update_same]
    rw [guardCount, if_pos hr, a4]

theorem overflowCycle_iterate (n : Nat) :
    Reachable demoLayout (overflowCycle^[n] (OS_Launch (OS_Init demoLayout boot))) ∧
    (overflowCycle^[n] (OS_Launch (OS_Init demoLayout boot))).OS_Running = 1 ∧
    ((overflowCycle^[n] (OS_Launch (OS_Init demoLayout boot))).tcbs 1).status = TCB_FREE ∧
    (overflowCycle^[n] (OS_Launch (OS_Init demoLayout boot))).stack_overflow_count 1
      = n % 256 := by
  induction n with
  | zero => exact ⟨Reachable.launch _ Reachable.init, by decide, by decide, by decide⟩
  | succ n ih =>
    obtain ⟨h1, h2, h3, h4⟩ := ih
    rw [Function.iterate_succ_apply']
    obtain ⟨g1, g2, g3⟩ := overflowCycle_step _ h3
    refine ⟨?_, g1.trans h2, g2, ?_⟩
    · exact Reachable.check _ 1 (Reachable.write _ 1 0 0 (Reachable.addThread _ _ _ _ h1))
    · rw [g3, h4]; omega

/-- C5 as stated fails once the `uint8_t` overflow counter is at 255: `wrapState` is a
running reachable kernel whose slot 1 is non-Free with a broken canary and counter 255,
and no number of ticks makes the counter one greater than before. -/
theorem C5_overflow_counter_wraps :
    Reachable demoLayout wrapState ∧ wrapState.OS_Running ≠ 0 ∧
    (wrapState.tcbs 1).status ≠ TCB_FREE ∧ wrapState.stacksArr 1 0 ≠ STACK_CANARY ∧
    wrapState.stack_overflow_count 1 = 255 ∧
    ∀ n, (OS_TickHandler^[n] wrapState).stack_overflow_count 1 ≠
      wrapState.stack_overflow_count 1 + 1 := by
  obtain ⟨h1, h2, h3, h4⟩ := overflowCycle_iterate 255
  obtain ⟨a1, a2, a3, a4⟩ := add_then_overwrite _ h3
  have hw : wrapState = writeStack (OS_AddThread demoLayout
      (overflowCycle^[255] (OS_Launch (OS_Init demoLayout boot)))
      0x08001001 5 0x08000210).1 1 0 0 := by
    unfold wrapState
    rfl
  rw [hw]
  have hreach := Reachable.write _ 1 0 0 (Reachable.addThread _ 0x08001001 5 0x08000210 h1)
  have hcount := congrFun a4 1
  rw [h4] at hcount
  refine ⟨hreach, ?_, a2, a3, hcount, ?_⟩
  · rw [a1, h2]
    exact Nat.one_ne_zero
  · intro n
    have hlt := (Reachable_counters demoLayout _ (Reachable_ticks demoLayout _ hreach n)).2 1
    rw [hcount]
    omega

/-! ## Registration on the status column -/

theorem addLoop_abs (L : Layout) (k : Kernel) (task : Nat) (priority : Fin 256) (name : Nat)
    (l : List (Fin 8)) :
    statusOf (addLoop L k task priority name l).1 = (absLoop (statusOf k) l).1 ∧
    (addLoop L k task priority name l).2 = (absLoop (statusOf k) l).2 := by
  induction l with
  | nil => exact ⟨rfl, rfl⟩
  | cons i rest ih =>
    by_cases h : (k.tcbs i).status = TCB_FREE
    · have h' : statusOf k i = TCB_FREE := h
      rw [addLoop, absLoop, if_pos h, if_pos h']
      refine ⟨?_, rfl⟩
      funext j
      show ((addBody L k i task priority name).tcbs j).status = _
      rw [(addBody_tcbs L k i task priority name j).1]
      show _ = Function.update (statusOf k) i TCB_ACTIVE j
      rw [Function.update_apply]
      rfl
    · have h' : ¬ statusOf k i = TCB_FREE := h
      rw [addLoop, absLoop, if_neg h, if_neg h']
      exact ih

theorem addThreads_abs (L : Layout) (args : List AddArgs) (k : Kernel)
    (hnn : ∀ a ∈ args, a.task ≠ 0) :
    (addThreads L k args).2 = absRun (statusOf k) args.length := by
  induction args generalizing k with
  | nil => rfl
  | cons a rest ih =>
    have ha : a.task ≠ 0 := hnn a (List.mem_cons_self a rest)
    have hadd : OS_AddThread L k a.task a.priority a.name =
        addLoop L k a.task a.priority a.name userSlots := by
      unfold OS_AddThread
      rw [if_neg ha]
    obtain ⟨h1, h2⟩ := addLoop_abs L k a.task a.priority a.name userSlots
    show (OS_AddThread L k a.task a.priority a.name).2 ::
        (addThreads L (OS_AddThread L k a.task a.priority a.name).1 rest).2 = _
    rw [ih _ (fun b hb => hnn b (List.mem_cons_of_mem a hb)), hadd, h1, h2]
    rfl

theorem OS_Init_status (L : Layout) (k : Kernel) :
    statusOf (OS_Init L k) = fun i => if i = 0 then TCB_ACTIVE else TCB_FREE := by
  funext i
  fin_cases i <;> rfl

/-- C6: after `OS_Init`, whatever the non-null entry points, priorities and names, the
first seven consecutive calls of `OS_AddThread` return 1 and the eighth returns 0. -/
theorem C6_seven_registrations_then_full (L : Layout) (k : Kernel) (args : List AddArgs)
    (hlen : args.length = 8) (hnn : ∀ a ∈ args, a.task ≠ 0) :
    (addThreads L (OS_Init L k) args).2 = [1, 1, 1, 1, 1, 1, 1, 0] := by
  rw [addThreads_abs L args _ hnn, hlen, OS_Init_status]
  decide

theorem C6_seven_registrations_then_full_witness :
    (addThreads demoLayout (OS_Init demoLayout boot)
      (List.replicate 8 { task := 0x08001001, priority := 7, name := 0 })).2
      = [1, 1, 1, 1, 1, 1, 1, 0] :=
  C6_seven_registrations_then_full demoLayout boot
    (List.replicate 8 { task := 0x08001001, priority := 7, name := 0 }) (by decide) (by decide)

/-- C7: `OS_AddThread` returns 0 exactly when the entry point is null or none of the
slots 1..7 is Free, and whenever it returns 0 the kernel data is what it was before. -/
theorem C7_add_thread_failure (L : Layout) (k : Kernel) (task : Nat) (priority : Fin 256)
    (name : Nat) :
    ((OS_AddThread L k task priority name).2 = 0 ↔
      (task = 0 ∨ ∀ i : Fin 8, 1 ≤ i.val → (k.tcbs i).status ≠ TCB_FREE)) ∧
    ((OS_AddThread L k task priority name).2 = 0 →
      (OS_AddThread L k task priority name).1 = k) := by
  have hmem : ∀ i : Fin 8, i ∈ userSlots ↔ 1 ≤ i.val := by decide
  by_cases ht : task = 0
  · unfold OS_AddThread
    rw [if_pos ht]
    exact ⟨⟨fun _ => Or.inl ht, fun _ => rfl⟩, fun _ => rfl⟩
  · have hadd : OS_AddThread L k task priority name =
        addLoop L k task priority name userSlots := by
      unfold OS_AddThread
      rw [if_neg ht]
    rw [hadd]
    rcases addLoop_cases L k task priority name userSlots with ⟨h1, h2⟩ | ⟨i, hi, hf, _, h2⟩
    · rw [h2]
      exact ⟨⟨fun _ => Or.inr (fun i hi => h1 i ((hmem i).mpr hi)), fun _ => rfl⟩, fun _ => rfl⟩
    · rw [h2]
      have h10 : ¬ (addBody L k i task priority name, (1 : Int)).2 = 0 := Int.one_ne_zero
      refine ⟨⟨fun h => absurd h h10, ?_⟩, fun h => absurd h h10⟩
      rintro (h | h)
      · exact absurd h ht
      · exact absurd hf (h i ((hmem i).mp hi))

/-! ## Initialisation -/

/-- C8: whatever the kernel data was before, after `OS_Init` the active-thread count is
1, `RunPt` refers to slot 0, the run flag is clear, slot 0 is Active with priority 255,
sleep 0 and a ring link to itself, slots 1..7 are Free and every overflow counter is 0. -/
theorem C8_init_resets (L : Layout) (k : Kernel) :
    (OS_Init L k).ActiveThreads = 1 ∧
    (OS_Init L k).RunPt = some 0 ∧
    (OS_Init L k).OS_Running = 0 ∧
    ((OS_Init L k).tcbs 0).status = TCB_ACTIVE ∧
    ((OS_Init L k).tcbs 0).priority = 255 ∧
    ((OS_Init L k).tcbs 0).sleep = 0 ∧
    ((OS_Init L k).tcbs 0).next = some 0 ∧
    (∀ i : Fin 8, 1 ≤ i.val → ((OS_Init L k).tcbs i).status = TCB_FREE) ∧
    (∀ i : Fin 8, (OS_Init L k).stack_overflow_count i = 0) := by
  refine ⟨rfl, rfl, rfl, rfl, rfl, rfl, rfl, ?_, ?_⟩
  · intro i hi
    fin_cases i
    · exact absurd hi (by decide)
    all_goals rfl
  · intro i
    fin_cases i <;> rfl

/-! ## The initial stack image -/

theorem storeWord_wordAddr (L : Layout) (st : Fin 8 → Fin 256 → Nat) (i : Fin 8) (j : Nat)
    (hj : j < 256) (v : Nat) :
    storeWord L st (wordAddr L i.val j) v = setWord st i ⟨j, hj⟩ v := by
  have hi := i.isLt
  have h : L.stacksAddr ≤ wordAddr L i.val j ∧ (wordAddr L i.val j - L.stacksAddr) / 4 < 8 * 256 := by
    unfold wordAddr STACKSIZE
    omega
  unfold storeWord
  rw [dif_pos h]
  have e1 : (⟨(wordAddr L i.val j - L.stacksAddr) / 4 / 256, by omega⟩ : Fin 8) = i := by
    apply Fin.ext
    show (wordAddr L i.val j - L.stacksAddr) / 4 / 256 = i.val
    unfold wordAddr STACKSIZE
    omega
  have e2 : (⟨(wordAddr L i.val j - L.stacksAddr) / 4 % 256, by omega⟩ : Fin 256) = ⟨j, hj⟩ := by
    apply Fin.ext
    show (wordAddr L i.val j - L.stacksAddr) / 4 % 256 = j
    unfold wordAddr STACKSIZE
    omega
  rw [e1, e2]

/-- Pushing a list of words from word index `T` of stack `i` downwards. -/
theorem foldl_push_words (L : Layout) (i : Fin 8) (l : List Nat) (T : Nat)
    (hT : l.length ≤ T ∧ T ≤ 256) (st : Fin 8 → Fin 256 → Nat) :
    l.foldl (push L) (st, wordAddr L i.val T) =
      (fun r c => if r = i ∧ T - l.length ≤ c.val ∧ c.val < T then l.getD (T - 1 - c.val) 0
        else st r c,
       wordAddr L i.val (T - l.length)) := by
  induction l generalizing T st with
  | nil =>
    simp only [List.foldl_nil, List.length_nil, Nat.sub_zero]
    congr 1
    funext r c
    rw [if_neg]
    omega
  | cons v rest ih =>
    simp only [List.length_cons] at hT
    have hpush : push L (st, wordAddr L i.val T) v =
        (setWord st i ⟨T - 1, by omega⟩ v, wordAddr L i.val (T - 1)) := by
      unfold push
      have e : wordAddr L i.val T - 4 = wordAddr L i.val (T - 1) := by
        unfold wordAddr STACKSIZE
        omega
      simp only [e, storeWord_wordAddr L st i (T - 1) (by omega) v]
    rw [List.foldl_cons, hpush, ih (T - 1) (by omega)]
    simp only [List.length_cons]
    congr 1
    · funext r c
      by_cases hr : r = i
      · subst hr
        by_cases hc : c.val = T - 1
        · have hc' : c = ⟨T - 1, by omega⟩ := Fin.ext hc
          rw [if_neg (by omega), if_pos ⟨rfl, by omega, by omega⟩]
          rw [hc']
          simp [setWord]
        · by_cases hin : T - (rest.length + 1) ≤ c.val ∧ c.val < T
          · rw [if_pos ⟨rfl, by omega, by omega⟩, if_pos ⟨rfl, hin⟩]
            have e : T - 1 - c.val = (T - 1 - 1 - c.val) + 1 := by omega
            rw [e]
            rfl
          · rw [if_neg (by omega), if_neg (by tauto)]
            have hne : c ≠ ⟨T - 1, by omega⟩ := fun h => hc (congrArg Fin.val h)
            simp [setWord, hne]
      · rw [if_neg (by tauto), if_neg (by tauto)]
        simp [setWord, hr]
    · congr 1
      omega

theorem frameTop_eq (L : Layout) (i : Nat) (halign : L.stacksAddr % 4 = 0) :
    frameTop L i = wordAddr L i (if wordAddr L i 256 % 8 = 0 then 256 else 255) := by
  unfold frameTop
  split_ifs with h
  · show wordAddr L i 256 - wordAddr L i 256 % 8 = _
    rw [h]; rfl
  · have h4 : wordAddr L i 256 % 8 = 4 := by
      unfold wordAddr STACKSIZE at h ⊢
      omega
    show wordAddr L i 256 - wordAddr L i 256 % 8 = _
    rw [h4]
    unfold wordAddr STACKSIZE
    omega

theorem initialFrame_reverse (task : Nat) (n : Nat) (hn : n < 16) :
    (initialFrame task).getD (15 - n) 0 = (refFrame task).getD n 0 := by
  interval_cases n <;> rfl

/-- The row that `SetInitialStack` builds, given the word index of the aligned top. -/
theorem builtStacks_row (L : Layout) (st : Fin 8 → Fin 256 → Nat) (i : Fin 8) (task : Nat)
    (T : Nat) (hT : 16 < T ∧ T ≤ 256) (htop : frameTop L i.val = wordAddr L i.val T) :
    builtStacks L st i task i = refImage T task := by
  unfold builtStacks
  rw [htop, foldl_push_words L i (initialFrame task) T (by simp [initialFrame]; omega)]
  funext c
  have hlen : (initialFrame task).length = 16 := rfl
  simp only [hlen, true_and]
  unfold refImage
  by_cases hin : T - 16 ≤ c.val ∧ c.val < T
  · rw [if_pos hin, if_neg (by omega), if_pos hin]
    have e : T - 1 - c.val = 15 - (c.val - (T - 16)) := by omega
    rw [e]
    exact initialFrame_reverse task _ (by omega)
  · rw [if_neg hin]
    by_cases h0 : c.val = 0
    · have hc : c = 0 := Fin.ext h0
      rw [if_pos h0, hc]
      simp [setWord, STACK_CANARY]
    · have hc : c ≠ 0 := fun h => h0 (congrArg Fin.val h)
      rw [if_neg h0, if_neg hin]
      simp [setWord, hc, STACK_FILL_PATTERN]

/-- The rows that `SetInitialStack` leaves alone. -/
theorem builtStacks_other (L : Layout) (st : Fin 8 → Fin 256 → Nat) (i : Fin 8) (task : Nat)
    (halign : L.stacksAddr % 4 = 0) (r : Fin 8) (hr : r ≠ i) :
    builtStacks L st i task r = st r := by
  unfold builtStacks
  rw [frameTop_eq L i.val halign,
    foldl_push_words L i (initialFrame task) _ (by simp [initialFrame]; split_ifs <;> omega)]
  funext c
  simp only
  rw [if_neg (by tauto)]
  simp [setWord, hr]

/-- C9: for every slot `i`, every entry address and either alignment of the end of the
stack region (top word index 256 when the end address is a multiple of 8, 255
otherwise), the row `SetInitialStack` builds is the reference image (canary in word 0,
the sixteen-word register frame below the top, the fill pattern elsewhere) and the saved
stack pointer is the address of word `T - 16`. -/
theorem C9_initial_stack_image (L : Layout) (k : Kernel) (i : Fin 8) (task : Nat)
    (halign : L.stacksAddr % 4 = 0) :
    (wordAddr L i.val 256 % 8 = 0 →
      (SetInitialStack L k i.val task).stacksArr i = refImage 256 task ∧
      ((SetInitialStack L k i.val task).tcbs i).sp = wordAddr L i.val (256 - 16)) ∧
    (wordAddr L i.val 256 % 8 ≠ 0 →
      (SetInitialStack L k i.val task).stacksArr i = refImage 255 task ∧
      ((SetInitialStack L k i.val task).tcbs i).sp = wordAddr L i.val (255 - 16)) := by
  have htop := frameTop_eq L i.val halign
  rw [SetInitialStack_eq]
  constructor
  · intro h
    rw [if_pos h] at htop
    constructor
    · exact builtStacks_row L k.stacksArr i task 256 (by omega) htop
    · show (Function.update k.tcbs i _ i).sp = _
      rw [Function.update_same]
      show frameTop L i.val - 64 = _
      rw [htop]
      unfold wordAddr STACKSIZE
      omega
  · intro h
    rw [if_neg h] at htop
    constructor
    · exact builtStacks_row L k.stacksArr i task 255 (by omega) htop
    · show (Function.update k.tcbs i _ i).sp = _
      rw [Function.update_same]
      show frameTop L i.val - 64 = _
      rw [htop]
      unfold wordAddr STACKSIZE
      omega

theorem C9_initial_stack_image_witness :
    ((SetInitialStack demoLayout boot 3 0x08003001).stacksArr 3 = refImage 256 0x08003001 ∧
      ((SetInitialStack demoLayout boot 3 0x08003001).tcbs 3).sp = 0x20000000 + 4 * (256 * 3 + 240)) ∧
    ((SetInitialStack oddLayout boot 3 0x08003001).stacksArr 3 = refImage 255 0x08003001 ∧
      ((SetInitialStack oddLayout boot 3 0x08003001).tcbs 3).sp = 0x20000004 + 4 * (256 * 3 + 239)) :=
  ⟨(C9_initial_stack_image demoLayout boot 3 0x08003001 (by decide)).1 (by decide),
   (C9_initial_stack_image oddLayout boot 3 0x08003001 (by decide)).2 (by decide)⟩

/-! ## The idle slot -/

/-- The guard pass comes due after `100 - tick_counter` ticks and then retires a
non-Free slot whose canary is broken. -/
theorem ticks_retire (k : Kernel) (i : Fin 8) (n : Nat) (hrun : k.OS_Running ≠ 0)
    (hpos : 0 < n) (hn : k.tick_counter + n = 100) (hnf : (k.tcbs i).status ≠ TCB_FREE)
    (hbad : k.stacksArr i 0 ≠ STACK_CANARY) :
    ((OS_TickHandler^[n] k).tcbs i).status = TCB_FREE ∧
    (OS_TickHandler^[n] k).stack_overflow_count i = (k.stack_overflow_count i + 1) % 256 := by
  obtain ⟨m, rfl⟩ : ∃ m, n = m + 1 := ⟨n - 1, by omega⟩
  obtain ⟨h1, h2, h3, h4, h5⟩ := ticks_before_guard k i hrun hnf m (by omega)
  have hg := OS_TickHandler_guard (OS_TickHandler^[m] k) i h1
    (by rw [h3]; omega) h4 (by rw [h2]; exact hbad)
  rw [Function.iterate_succ_apply', ← h5]
  exact hg

/-- C10 fails on the code: the guard treats slot 0 like any other slot.  After
`OS_Init`, one store into word 0 of the idle stack followed by `CheckStackOverflow(0)`
leaves slot 0 Free; the same happens through the periodic guard pass, on the 100th
`OS_TickHandler` call of a launched kernel. -/
theorem C10_idle_slot_retired :
    (Reachable demoLayout (CheckStackOverflow (writeStack (OS_Init demoLayout boot) 0 0 0) 0) ∧
      ((CheckStackOverflow (writeStack (OS_Init demoLayout boot) 0 0 0) 0).tcbs 0).status
        = TCB_FREE) ∧
    (Reachable demoLayout (OS_TickHandler^[100] idleBroken) ∧
      ((OS_TickHandler^[100] idleBroken).tcbs 0).status = TCB_FREE) := by
  refine ⟨⟨Reachable.check _ 0 (Reachable.write _ 0 0 0 Reachable.init), by decide⟩, ?_, ?_⟩
  · exact Reachable_ticks demoLayout _
      (Reachable.write _ 0 0 0 (Reachable.launch _ Reachable.init)) 100
  · have hrun : idleBroken.OS_Running ≠ 0 := by decide
    have hc : idleBroken.tick_counter + 100 = 100 := by decide
    have hnf : (idleBroken.tcbs 0).status ≠ TCB_FREE := by decide
    have hw : idleBroken.stacksArr 0 0 ≠ STACK_CANARY := by decide
    exact (ticks_retire idleBroken 0 100 hrun (by decide) hc hnf hw).1

theorem sleepTCB_priority (t : TCB_t) : (sleepTCB t).priority = t.priority := by
  unfold sleepTCB
  split_ifs <;> rfl

theorem guardTCB_priority (w : Nat) (t : TCB_t) : (guardTCB w t).priority = t.priority := by
  unfold guardTCB
  split_ifs <;> rfl

theorem OS_Sleep_priority (k : Kernel) (ms : Nat) (j : Fin 8) :
    ((OS_Sleep k ms).tcbs j).priority = (k.tcbs j).priority := by
  unfold OS_Sleep
  split
  · rfl
  · rename_i r _
    by_cases h0 : k.OS_Running = 0
    · rw [if_pos h0]
    · rw [if_neg h0]
      by_cases hj : j = r
      · subst hj
        simp [setTCB]
      · simp [setTCB, Function.update_noteq hj]

/-- The priority half of the idle-slot invariant: no operation ever stores into
`tcbs[0].priority` after `OS_Init` has set it to 255. -/
theorem Reachable_idle_priority (L : Layout) (k : Kernel) (h : Reachable L k) :
    (k.tcbs 0).priority = 255 := by
  induction h with
  | init => rfl
  | addThread k task priority name _ ih =>
    rcases OS_AddThread_cases L k task priority name with h | ⟨i, hi, _, h⟩
    · rw [h]; exact ih
    · rw [h]
      show ((addBody L k i task priority name).tcbs 0).priority = 255
      rw [(addBody_tcbs L k i task priority name 0).2.1, if_neg (Ne.symm hi)]
      exact ih
  | launch k _ ih =>
    rcases OS_Launch_eq k with h | h
    · rw [h]; exact ih
    · rw [h]; exact ih
  | sleep k ms _ ih => rw [OS_Sleep_priority]; exact ih
  | scheduler k _ ih => rw [OS_Scheduler_eq]; exact ih
  | tick k _ ih =>
    by_cases hrun : k.OS_Running = 0
    · rw [OS_TickHandler_stopped k hrun]; exact ih
    · rw [OS_TickHandler_running k hrun]
      split_ifs
      · show (guardTCB _ (sleepTCB (k.tcbs 0))).priority = 255
        rw [guardTCB_priority, sleepTCB_priority]; exact ih
      · show (sleepTCB (k.tcbs 0)).priority = 255
        rw [sleepTCB_priority]; exact ih
  | check k i _ ih =>
    by_cases hi : i < 8
    · have he : CheckStackOverflow k i = _ := CheckStackOverflow_eq k ⟨i, hi⟩
      rw [he]
      show (Function.update k.tcbs ⟨i, hi⟩ (guardTCB _ (k.tcbs ⟨i, hi⟩)) 0).priority = 255
      rw [Function.update_apply]
      split_ifs with h0
      · rw [guardTCB_priority, ← h0]; exact ih
      · exact ih
    · rw [CheckStackOverflow_out_of_range k i (by omega)]; exact ih
  | write k i j v _ ih => exact ih

/-! ## Scheduling with no ready user task -/

/-- C12: in a running kernel in which every user slot 1..7 is Free or Sleeping,
`OS_Scheduler` leaves `RunPt` on the idle slot 0, whichever slot it referred to before. -/
theorem C12_idle_selected_when_no_user_ready (k : Kernel) (hrun : Running k)
    (huser : ∀ i : Fin 8, 1 ≤ i.val →
      (k.tcbs i).status = TCB_FREE ∨ (k.tcbs i).status = TCB_SLEEPING) :
    (OS_Scheduler k).RunPt = some 0 := by
  rw [OS_Scheduler_running k hrun]
  cases hb : (scan k).best with
  | none => rfl
  | some j =>
    have hc := (scan_best_candidate k j hb).1
    have hj : j = 0 := by
      by_contra hne
      have h1 : 1 ≤ j.val := by
        have : j.val ≠ 0 := fun h => hne (Fin.ext h)
        omega
      rcases huser j h1 with h | h
      · rw [hc.1] at h; cases h
      · rw [hc.1] at h; cases h
    rw [hj]
    rfl

theorem C12_idle_selected_when_no_user_ready_witness :
    Running demoAllAsleep ∧ demoAllAsleep.RunPt = some 1 ∧
    (OS_Scheduler demoAllAsleep).RunPt = some 0 :=
  ⟨by decide, by decide,
   C12_idle_selected_when_no_user_ready demoAllAsleep (by decide) (by decide)⟩

/-! ## Voluntary sleep -/

theorem OS_Sleep_running (k : Kernel) (ms : Nat) (r : Fin 8) (hrun : k.OS_Running ≠ 0)
    (hr : k.RunPt = some r) :
    OS_Sleep k ms =
      { k with
        tcbs := Function.update k.tcbs r
          { k.tcbs r with
            sleep := ms
            status := if ms > 0 then TCB_SLEEPING else TCB_ACTIVE } } := by
  unfold OS_Sleep
  rw [hr]
  simp only [hrun, if_false, setTCB, Function.update_same, Function.update_idem]
  rw [hr]

theorem OS_Sleep_idle (k : Kernel) (ms : Nat) (h : k.OS_Running = 0 ∨ k.RunPt = none) :
    OS_Sleep k ms = k := by
  unfold OS_Sleep
  rcases h with h | h
  · split
    · rfl
    · rw [if_pos h]
  · rw [h]

/-- C13 (amended): in a running kernel, after `OS_Sleep(ticks)` the slot `RunPt` refers
to has sleep countdown `ticks` and status Sleeping when `ticks > 0`, status Active when
`ticks = 0`; `RunPt` is unchanged and no field of any other slot is changed. -/
theorem C13_sleep_marks_caller (k : Kernel) (ms : Nat) (r : Fin 8)
    (hrun : k.OS_Running ≠ 0) (hr : k.RunPt = some r) :
    (0 < ms → ((OS_Sleep k ms).tcbs r).status = TCB_SLEEPING) ∧
    (ms = 0 → ((OS_Sleep k ms).tcbs r).status = TCB_ACTIVE) ∧
    ((OS_Sleep k ms).tcbs r).sleep = ms ∧
    (OS_Sleep k ms).RunPt = k.RunPt ∧
    (∀ j, j ≠ r → (OS_Sleep k ms).tcbs j = k.tcbs j) := by
  rw [OS_Sleep_running k ms r hrun hr]
  refine ⟨fun h => ?_, fun h => ?_, ?_, rfl, fun j hj => ?_⟩
  · simp only [Function.update_same]
    rw [if_pos h]
  · simp only [Function.update_same]
    rw [if_neg (by omega)]
  · simp only [Function.update_same]
  · exact Function.update_noteq hj _ _

theorem C13_sleep_marks_caller_witness :
    (0 < 4 → ((OS_Sleep demo533 4).tcbs 2).status = TCB_SLEEPING) ∧
    (4 = 0 → ((OS_Sleep demo533 4).tcbs 2).status = TCB_ACTIVE) ∧
    ((OS_Sleep demo533 4).tcbs 2).sleep = 4 ∧
    (OS_Sleep demo533 4).RunPt = demo533.RunPt ∧
    (∀ j, j ≠ 2 → (OS_Sleep demo533 4).tcbs j = demo533.tcbs j) :=
  C13_sleep_marks_caller demo533 4 2 (by decide) (by decide)

/-- C13 as stated fails for a tick count of 0: the running slot 2 of the launched sample
kernel is Active, not Sleeping, after `OS_Sleep(0)`. -/
theorem C13_sleep_zero_stays_active :
    Running demo533 ∧ demo533.RunPt = some 2 ∧
    ((OS_Sleep demo533 0).tcbs 2).status = TCB_ACTIVE ∧
    ((OS_Sleep demo533 0).tcbs 2).status ≠ TCB_SLEEPING := by
  decide

/-! ## The frame of the stack guard -/

/-- The sample state whose slot 1 has overflow counter 255: reachable, slot 1 non-Free
with a broken canary. -/
theorem wrapState_facts :
    Reachable demoLayout wrapState ∧ (wrapState.tcbs 1).status ≠ TCB_FREE ∧
    wrapState.stacksArr 1 0 ≠ STACK_CANARY ∧ wrapState.stack_overflow_count 1 = 255 := by
  obtain ⟨h1, _, h3, h4⟩ := overflowCycle_iterate 255
  obtain ⟨_, a2, a3, a4⟩ := add_then_overwrite _ h3
  have hw : wrapState = writeStack (OS_AddThread demoLayout
      (overflowCycle^[255] (OS_Launch (OS_Init demoLayout boot)))
      0x08001001 5 0x08000210).1 1 0 0 := by
    unfold wrapState
    rfl
  rw [hw]
  have hcount := congrFun a4 1
  rw [h4] at hcount
  exact ⟨Reachable.write _ 1 0 0 (Reachable.addThread _ 0x08001001 5 0x08000210 h1),
    a2, a3, hcount⟩

/-- C16 (amended): `CheckStackOverflow(i)` for `i < 8` changes the kernel data only when
slot `i` is non-Free and its word 0 is not the canary; then the status of slot `i`
becomes Free and `stack_overflow_count[i]` goes up by one modulo 256 (by exactly one
when it was below 255), and nothing else changes: the other fields of slot `i`, every
other slot and counter, the stack words, `RunPt`, `ActiveThreads`, `OS_Running`; every
other candidate stays a candidate. -/
theorem C16_guard_frame (k : Kernel) (i : Fin 8) :
    (¬ ((k.tcbs i).status ≠ TCB_FREE ∧ k.stacksArr i 0 ≠ STACK_CANARY) →
      CheckStackOverflow k i.val = k) ∧
    (((k.tcbs i).status ≠ TCB_FREE ∧ k.stacksArr i 0 ≠ STACK_CANARY) →
      CheckStackOverflow k i.val =
        { k with
          tcbs := Function.update k.tcbs i { k.tcbs i with status := TCB_FREE }
          stack_overflow_count := Function.update k.stack_overflow_count i
            ((k.stack_overflow_count i + 1) % 256) } ∧
      ((CheckStackOverflow k i.val).tcbs i).status = TCB_FREE ∧
      (CheckStackOverflow k i.val).stack_overflow_count i
        = (k.stack_overflow_count i + 1) % 256 ∧
      (k.stack_overflow_count i < 255 →
        (CheckStackOverflow k i.val).stack_overflow_count i = k.stack_overflow_count i + 1) ∧
      ((CheckStackOverflow k i.val).tcbs i).priority = (k.tcbs i).priority ∧
      ((CheckStackOverflow k i.val).tcbs i).sleep = (k.tcbs i).sleep ∧
      ((CheckStackOverflow k i.val).tcbs i).sp = (k.tcbs i).sp ∧
      ((CheckStackOverflow k i.val).tcbs i).next = (k.tcbs i).next ∧
      (∀ j, j ≠ i → (CheckStackOverflow k i.val).tcbs j = k.tcbs j ∧
        (CheckStackOverflow k i.val).stack_overflow_count j = k.stack_overflow_count j) ∧
      (CheckStackOverflow k i.val).stacksArr = k.stacksArr ∧
      (CheckStackOverflow k i.val).RunPt = k.RunPt ∧
      (CheckStackOverflow k i.val).ActiveThreads = k.ActiveThreads ∧
      (CheckStackOverflow k i.val).OS_Running = k.OS_Running ∧
      (∀ j, j ≠ i → Candidate k j → Candidate (CheckStackOverflow k i.val) j)) := by
  rw [CheckStackOverflow_eq]
  constructor
  · intro h
    have hr : ¬ Retires (k.stacksArr i 0) (k.tcbs i) := h
    simp only [guardTCB, guardCount, if_neg hr, Function.update_eq_self]
  · intro h
    have hr : Retires (k.stacksArr i 0) (k.tcbs i) := h
    simp only [guardTCB, guardCount, if_pos hr, Function.update_same, true_and]
    refine ⟨fun hlt => by omega, fun j hj => ?_, fun j hj hc => ?_⟩
    · exact ⟨Function.update_noteq hj _ _, Function.update_noteq hj _ _⟩
    · unfold Candidate at hc ⊢
      simp only [Function.update_noteq hj]
      exact hc

theorem C16_guard_frame_witness :
    (¬ ((demo533.tcbs 1).status ≠ TCB_FREE ∧ demo533.stacksArr 1 0 ≠ STACK_CANARY) →
      CheckStackOverflow demo533 1 = demo533) ∧
    ((demoBroken.tcbs 1).status ≠ TCB_FREE ∧ demoBroken.stacksArr 1 0 ≠ STACK_CANARY) ∧
    ((CheckStackOverflow demoBroken 1).tcbs 1).status = TCB_FREE ∧
    (CheckStackOverflow demoBroken 1).stack_overflow_count 1 = 1 ∧
    (CheckStackOverflow demoBroken 1).RunPt = demoBroken.RunPt :=
  ⟨(C16_guard_frame demo533 1).1,
   by decide,
   ((C16_guard_frame demoBroken 1).2 (by decide)).2.1,
   ((C16_guard_frame demoBroken 1).2 (by decide)).2.2.1,
   ((C16_guard_frame demoBroken 1).2 (by decide)).2.2.2.2.2.2.2.2.2.2.1⟩

/-- C16 as stated fails at overflow counter 255: on `wrapState` the guard retires slot 1
and the counter becomes 0, not 256. -/
theorem C16_counter_wraps_in_guard :
    Reachable demoLayout wrapState ∧ (wrapState.tcbs 1).status ≠ TCB_FREE ∧
    wrapState.stacksArr 1 0 ≠ STACK_CANARY ∧
    (CheckStackOverflow wrapState 1).stack_overflow_count 1 = 0 ∧
    (CheckStackOverflow wrapState 1).stack_overflow_count 1 ≠
      wrapState.stack_overflow_count 1 + 1 := by
  obtain ⟨h1, h2, h3, h4⟩ := wrapState_facts
  have he : CheckStackOverflow wrapState 1 = _ := CheckStackOverflow_eq wrapState 1
  have hr : Retires (wrapState.stacksArr 1 0) (wrapState.tcbs 1) := ⟨h2, h3⟩
  have hc : (CheckStackOverflow wrapState 1).stack_overflow_count 1 = 0 := by
    rw [he]
    simp only [Function.update_same]
    rw [guardCount, if_pos hr, h4]
  refine ⟨h1, h2, h3, hc, ?_⟩
  rw [hc, h4]
  decide

/-! ## Status and sleep count agree -/

theorem sleepTCB_SleepOK (t : TCB_t) (h : SleepOK t) : SleepOK (sleepTCB t) := by
  unfold sleepTCB
  split_ifs with h1 h2
  · exact ⟨fun hs => (by cases hs), fun _ => h2⟩
  · exact ⟨fun _ => Nat.pos_of_ne_zero h2, fun hs => by rw [h1.1] at hs; cases hs⟩
  · exact h

theorem guardTCB_SleepOK (w : Nat) (t : TCB_t) (h : SleepOK t) : SleepOK (guardTCB w t) := by
  unfold guardTCB
  split_ifs
  · exact ⟨fun hs => (by cases hs), fun hs => by cases hs⟩
  · exact h

theorem OS_Init_SleepOK (L : Layout) (k : Kernel) (i : Fin 8) :
    SleepOK ((OS_Init L k).tcbs i) := by
  fin_cases i
  · exact ⟨fun hs => (by cases hs), fun _ => rfl⟩
  all_goals exact ⟨fun hs => (by cases hs), fun hs => by cases hs⟩

theorem addBody_SleepOK (L : Layout) (k : Kernel) (i : Fin 8) (task : Nat)
    (priority : Fin 256) (name : Nat) (h : ∀ j, SleepOK (k.tcbs j)) (j : Fin 8) :
    SleepOK ((addBody L k i task priority name).tcbs j) := by
  obtain ⟨h1, _, h3⟩ := addBody_tcbs L k i task priority name j
  unfold SleepOK
  rw [h1, h3]
  by_cases hj : j = i
  · rw [if_pos hj, if_pos hj]
    exact ⟨fun hs => (by cases hs), fun _ => rfl⟩
  · rw [if_neg hj, if_neg hj]
    exact h j

theorem OS_Sleep_SleepOK (k : Kernel) (ms : Nat) (h : ∀ j, SleepOK (k.tcbs j)) (j : Fin 8) :
    SleepOK ((OS_Sleep k ms).tcbs j) := by
  by_cases hrun : k.OS_Running = 0
  · rw [OS_Sleep_idle k ms (Or.inl hrun)]; exact h j
  · cases hr : k.RunPt with
    | none => rw [OS_Sleep_idle k ms (Or.inr hr)]; exact h j
    | some r =>
      rw [OS_Sleep_running k ms r hrun hr]
      show SleepOK (Function.update k.tcbs r _ j)
      by_cases hj : j = r
      · subst hj
        rw [Function.update_same]
        unfold SleepOK
        by_cases hms : ms > 0
        · rw [if_pos hms]
          exact ⟨fun _ => hms, fun hs => by cases hs⟩
        · rw [if_neg hms]
          exact ⟨fun hs => (by cases hs), fun _ => (by show ms = 0; omega)⟩
      · rw [Function.update_noteq hj]; exact h j

theorem Reachable_SleepOK (L : Layout) (k : Kernel) (h : Reachable L k) (i : Fin 8) :
    SleepOK (k.tcbs i) := by
  induction h generalizing i with
  | init => exact OS_Init_SleepOK L boot i
  | addThread k task priority name _ ih =>
    rcases OS_AddThread_cases L k task priority name with h | ⟨j, _, _, h⟩
    · rw [h]; exact ih i
    · rw [h]; exact addBody_SleepOK L k j task priority name ih i
  | launch k _ ih =>
    rcases OS_Launch_eq k with h | h
    · rw [h]; exact ih i
    · rw [h]; exact ih i
  | sleep k ms _ ih => exact OS_Sleep_SleepOK k ms ih i
  | scheduler k _ ih => rw [OS_Scheduler_eq]; exact ih i
  | tick k _ ih =>
    by_cases hrun : k.OS_Running = 0
    · rw [OS_TickHandler_stopped k hrun]; exact ih i
    · rw [OS_TickHandler_running k hrun]
      split_ifs
      · exact guardTCB_SleepOK _ _ (sleepTCB_SleepOK _ (ih i))
      · exact sleepTCB_SleepOK _ (ih i)
  | check k j _ ih =>
    by_cases hj : j < 8
    · have he : CheckStackOverflow k j = _ := CheckStackOverflow_eq k ⟨j, hj⟩
      rw [he]
      show SleepOK (Function.update k.tcbs ⟨j, hj⟩ (guardTCB _ (k.tcbs ⟨j, hj⟩)) i)
      rw [Function.update_apply]
      split_ifs
      · exact guardTCB_SleepOK _ _ (ih _)
      · exact ih i
    · rw [CheckStackOverflow_out_of_range k j (by omega)]; exact ih i
  | write k a b v _ ih => exact ih i

/-- C18: in every kernel state reachable from `OS_Init` through the public operations and
stack writes, every Sleeping slot has a sleep count greater than 0 and every Active slot
has sleep count 0; so a non-Free slot is a scheduler candidate exactly when it is
Active, and no slot is Sleeping with a zero countdown. -/
theorem C18_status_matches_sleep_count (L : Layout) (k : Kernel) (h : Reachable L k)
    (i : Fin 8) :
    ((k.tcbs i).status = TCB_SLEEPING → 0 < (k.tcbs i).sleep) ∧
    ((k.tcbs i).status = TCB_ACTIVE → (k.tcbs i).sleep = 0) ∧
    ((k.tcbs i).status ≠ TCB_FREE → (Candidate k i ↔ (k.tcbs i).status = TCB_ACTIVE)) ∧
    ¬ ((k.tcbs i).status = TCB_SLEEPING ∧ (k.tcbs i).sleep = 0) := by
  obtain ⟨h1, h2⟩ := Reachable_SleepOK L k h i
  refine ⟨h1, h2, fun _ => ⟨fun hc => hc.1, fun ha => ⟨ha, h2 ha⟩⟩, ?_⟩
  rintro ⟨hs, h0⟩
  have := h1 hs
  omega

theorem C18_status_matches_sleep_count_witness :
    Reachable demoLayout demoTicked ∧
    (demoTicked.tcbs 2).status = TCB_SLEEPING ∧ (demoTicked.tcbs 2).sleep = 3 ∧
    (((demoTicked.tcbs 2).status = TCB_SLEEPING → 0 < (demoTicked.tcbs 2).sleep) ∧
    ((demoTicked.tcbs 2).status = TCB_ACTIVE → (demoTicked.tcbs 2).sleep = 0) ∧
    ((demoTicked.tcbs 2).status ≠ TCB_FREE →
      (Candidate demoTicked 2 ↔ (demoTicked.tcbs 2).status = TCB_ACTIVE)) ∧
    ¬ ((demoTicked.tcbs 2).status = TCB_SLEEPING ∧ (demoTicked.tcbs 2).sleep = 0)) :=
  ⟨Reachable.tick _ (Reachable.sleep _ 4 demo533_reachable), by decide, by decide,
   C18_status_matches_sleep_count demoLayout demoTicked
     (Reachable.tick _ (Reachable.sleep _ 4 demo533_reachable)) 2⟩

/-! ## Runs that spare the running slot and the idle slot -/

theorem ReachableSparing_mono (L : Layout) (keep keep' : Kernel → Fin 8 → Prop)
    (hk : ∀ k i, keep' k i → keep k i) (k : Kernel) (h : ReachableSparing L keep k) :
    ReachableSparing L keep' k := by
  induction h with
  | init => exact ReachableSparing.init
  | addThread k t p n _ ih => exact ReachableSparing.addThread k t p n ih
  | launch k _ ih => exact ReachableSparing.launch k ih
  | sleep k ms _ ih => exact ReachableSparing.sleep k ms ih
  | scheduler k _ ih => exact ReachableSparing.scheduler k ih
  | tick k _ hs ih => exact ReachableSparing.tick k ih (fun i hi => hs i (hk k i hi))
  | check k i _ hs ih => exact ReachableSparing.check k i ih (fun j hj => hs j (hk k j hj))
  | write k i j v _ ih => exact ReachableSparing.write k i j v ih

theorem ReachableSparing_reachable (L : Layout) (keep : Kernel → Fin 8 → Prop) (k : Kernel)
    (h : ReachableSparing L keep k) : Reachable L k := by
  induction h with
  | init => exact Reachable.init
  | addThread k t p n _ ih => exact Reachable.addThread k t p n ih
  | launch k _ ih => exact Reachable.launch k ih
  | sleep k ms _ ih => exact Reachable.sleep k ms ih
  | scheduler k _ ih => exact Reachable.scheduler k ih
  | tick k _ _ ih => exact Reachable.tick k ih
  | check k i _ _ ih => exact Reachable.check k i ih
  | write k i j v _ ih => exact Reachable.write k i j v ih

theorem OS_Init_idle_active (L : Layout) (k : Kernel) :
    ((OS_Init L k).tcbs 0).status = TCB_ACTIVE := rfl

theorem OS_TickHandler_RunPt (k : Kernel) : (OS_TickHandler k).RunPt = k.RunPt := by
  by_cases h : k.OS_Running = 0
  · rw [OS_TickHandler_stopped k h]
  · rw [OS_TickHandler_running k h]
    split_ifs <;> rfl

theorem CheckStackOverflow_RunPt (k : Kernel) (i : Nat) :
    (CheckStackOverflow k i).RunPt = k.RunPt := by
  by_cases hi : i < 8
  · have he : CheckStackOverflow k i = _ := CheckStackOverflow_eq k ⟨i, hi⟩
    rw [he]
  · rw [CheckStackOverflow_out_of_range k i (by omega)]

theorem OS_Scheduler_RunPtLive (k : Kernel) (h : RunPtLive k) : RunPtLive (OS_Scheduler k) := by
  by_cases hrun : Running k
  · rw [OS_Scheduler_running k hrun]
    refine ⟨h.1, (scan k).best.getD 0, rfl, ?_⟩
    show (k.tcbs ((scan k).best.getD 0)).status ≠ TCB_FREE
    cases hb : (scan k).best with
    | none => exact h.1
    | some j =>
      have hc := (scan_best_candidate k j hb).1
      simp only [Option.getD_some]
      rw [hc.1]
      decide
  · have : OS_Scheduler k = k := by
      unfold OS_Scheduler
      rw [if_pos]
      unfold Running at hrun
      by_contra hcon
      exact hrun ⟨fun h0 => hcon (Or.inl h0), fun h0 => hcon (Or.inr h0)⟩
    rw [this]; exact h

theorem RunPtLive_of_tcbs (k k' : Kernel) (hr : k'.RunPt = k.RunPt)
    (hs : ∀ i, (k.tcbs i).status ≠ TCB_FREE → (k'.tcbs i).status ≠ TCB_FREE)
    (h : RunPtLive k) : RunPtLive k' := by
  obtain ⟨h0, r, hr', hl⟩ := h
  exact ⟨hs 0 h0, r, hr.trans hr', hs r hl⟩

theorem OS_Sleep_status_live (k : Kernel) (ms : Nat) (i : Fin 8)
    (h : (k.tcbs i).status ≠ TCB_FREE) : ((OS_Sleep k ms).tcbs i).status ≠ TCB_FREE := by
  by_cases hrun : k.OS_Running = 0
  · rw [OS_Sleep_idle k ms (Or.inl hrun)]; exact h
  · cases hr : k.RunPt with
    | none => rw [OS_Sleep_idle k ms (Or.inr hr)]; exact h
    | some r =>
      rw [OS_Sleep_running k ms r hrun hr]
      show (Function.update k.tcbs r _ i).status ≠ TCB_FREE
      by_cases hi : i = r
      · subst hi
        rw [Function.update_same]
        show (if ms > 0 then TCB_SLEEPING else TCB_ACTIVE) ≠ TCB_FREE
        split_ifs <;> decide
      · rw [Function.update_noteq hi]; exact h

theorem OS_Sleep_RunPt (k : Kernel) (ms : Nat) : (OS_Sleep k ms).RunPt = k.RunPt := by
  rw [OS_Sleep_eq]

/-- As long as no guard pass retires the idle slot or the slot `RunPt` refers to, the idle
slot is not Free and `RunPt` refers to a slot that is not Free. -/
theorem ReachableSparing_RunPtLive (L : Layout) (k : Kernel)
    (h : ReachableSparing L idleOrRunning k) : RunPtLive k := by
  induction h with
  | init =>
    exact ⟨by rw [OS_Init_idle_active L boot]; decide, 0, rfl, by rw [OS_Init_idle_active L boot]; decide⟩
  | addThread k task priority name _ ih =>
    rcases OS_AddThread_cases L k task priority name with h | ⟨i, _, _, h⟩
    · rw [h]; exact ih
    · rw [h]
      refine RunPtLive_of_tcbs k _ (addBody_frame L k i task priority name).1 (fun j hj => ?_) ih
      rw [(addBody_tcbs L k i task priority name j).1]
      split_ifs
      · decide
      · exact hj
  | launch k _ ih =>
    unfold OS_Launch
    split_ifs
    · exact ih
    · exact OS_Scheduler_RunPtLive _ ih
  | sleep k ms _ ih =>
    exact RunPtLive_of_tcbs k _ (OS_Sleep_RunPt k ms) (OS_Sleep_status_live k ms) ih
  | scheduler k _ ih => exact OS_Scheduler_RunPtLive k ih
  | tick k _ hs ih =>
    obtain ⟨h0, r, hr, hl⟩ := ih
    exact ⟨fun hf => h0 (hs 0 (Or.inl rfl) hf), r, (OS_TickHandler_RunPt k).trans hr,
      fun hf => hl (hs r (Or.inr hr) hf)⟩
  | check k i _ hs ih =>
    obtain ⟨h0, r, hr, hl⟩ := ih
    exact ⟨fun hf => h0 (hs 0 (Or.inl rfl) hf), r, (CheckStackOverflow_RunPt k i).trans hr,
      fun hf => hl (hs r (Or.inr hr) hf)⟩
  | write k i j v _ ih => exact ih

/-- C11 (amended): in every kernel state reachable from `OS_Init` through the public
operations and stack writes by a run in which no guard pass retires the slot `RunPt`
refers to at that moment or the idle slot, `RunPt` refers to a slot whose status is not
Free. -/
theorem C11_runpt_refers_to_live_slot (L : Layout) (k : Kernel)
    (h : ReachableSparing L idleOrRunning k) :
    ∃ r, k.RunPt = some r ∧ (k.tcbs r).status ≠ TCB_FREE := by
  obtain ⟨_, r, hr, hlive⟩ := ReachableSparing_RunPtLive L k h
  exact ⟨r, hr, hlive⟩

theorem C11_runpt_refers_to_live_slot_witness :
    ReachableSparing demoLayout idleOrRunning demo533 ∧
    ∃ r, demo533.RunPt = some r ∧ (demo533.tcbs r).status ≠ TCB_FREE :=
  ⟨ReachableSparing.launch _ (ReachableSparing.addThread _ _ _ _
      (ReachableSparing.addThread _ _ _ _
        (ReachableSparing.addThread _ _ _ _ ReachableSparing.init))),
   C11_runpt_refers_to_live_slot demoLayout demo533
    (ReachableSparing.launch _ (ReachableSparing.addThread _ _ _ _
      (ReachableSparing.addThread _ _ _ _
        (ReachableSparing.addThread _ _ _ _ ReachableSparing.init))))⟩

/-- C11 as stated fails: after the guard has retired the running slot 1, `RunPt` still
refers to it, and the slot is Free. -/
theorem C11_runpt_on_retired_slot :
    Reachable demoLayout demoRunningRetired ∧
    demoRunningRetired.RunPt = some 1 ∧
    (demoRunningRetired.tcbs 1).status = TCB_FREE :=
  ⟨Reachable.check _ 1 (Reachable.write _ 1 0 0
      (Reachable.launch _ (Reachable.addThread _ _ _ _ Reachable.init))),
   by decide, by decide⟩

/-! ## User tasks at priority 255 -/

theorem schedStep_skips_255 (k : Kernel) (i : Fin 8) (hp : (k.tcbs i).priority = 255)
    (hr : k.RunPt ≠ some i) (b : Best) (j : Fin 8) (hb : b.best ≠ some i) :
    (schedStep k b j).best ≠ some i := by
  unfold schedStep
  split_ifs with hc hlt heq
  · intro h
    have hji : j = i := Option.some.inj h
    rw [hji, hp] at hlt
    have := b.best_priority.isLt
    rw [Fin.lt_def] at hlt
    have h255 : ((255 : Fin 256) : Nat) = 255 := rfl
    omega
  · intro h
    have hji : j = i := Option.some.inj h
    rw [hji] at heq
    exact hr heq.2.symm
  · exact hb
  · exact hb

theorem fold_skips_255 (k : Kernel) (i : Fin 8) (hp : (k.tcbs i).priority = 255)
    (hr : k.RunPt ≠ some i) (l : List (Fin 8)) (b : Best) (hb : b.best ≠ some i) :
    (l.foldl (schedStep k) b).best ≠ some i := by
  induction l generalizing b with
  | nil => exact hb
  | cons j rest ih => exact ih _ (schedStep_skips_255 k i hp hr b j hb)

/-- The scheduler never moves `RunPt` onto a user slot of priority 255. -/
theorem OS_Scheduler_skips_255 (k : Kernel) (i : Fin 8) (hi : i ≠ 0)
    (hp : (k.tcbs i).priority = 255) (hr : k.RunPt ≠ some i) :
    (OS_Scheduler k).RunPt ≠ some i := by
  by_cases hrun : Running k
  · rw [OS_Scheduler_running k hrun]
    show some ((scan k).best.getD 0) ≠ some i
    have hb : (scan k).best ≠ some i :=
      fold_skips_255 k i hp hr allSlots _ (fun h => by cases h)
    cases hbest : (scan k).best with
    | none =>
      intro h
      exact hi (Option.some.inj h).symm
    | some j =>
      intro h
      rw [hbest] at hb
      exact hb h
  · have : OS_Scheduler k = k := by
      unfold OS_Scheduler
      rw [if_pos]
      unfold Running at hrun
      by_contra hcon
      exact hrun ⟨fun h0 => hcon (Or.inl h0), fun h0 => hcon (Or.inr h0)⟩
    rw [this]; exact hr

theorem guardTCB_status_live (w : Nat) (t : TCB_t) (h : (guardTCB w t).status ≠ TCB_FREE) :
    t.status ≠ TCB_FREE ∧ guardTCB w t = t := by
  unfold guardTCB at h ⊢
  split_ifs at h ⊢ with hr
  · exact absurd rfl h
  · exact ⟨h, rfl⟩

/-- A guard pass or tick never turns a Free slot into a non-Free one and never changes
a priority. -/
theorem OS_TickHandler_live (k : Kernel) (i : Fin 8)
    (h : ((OS_TickHandler k).tcbs i).status ≠ TCB_FREE) :
    (k.tcbs i).status ≠ TCB_FREE ∧
    ((OS_TickHandler k).tcbs i).priority = (k.tcbs i).priority := by
  by_cases hrun : k.OS_Running = 0
  · rw [OS_TickHandler_stopped k hrun] at h ⊢; exact ⟨h, rfl⟩
  · rw [OS_TickHandler_running k hrun] at h ⊢
    split_ifs at h ⊢
    · have h' : (guardTCB (k.stacksArr i 0) (sleepTCB (k.tcbs i))).status ≠ TCB_FREE := h
      obtain ⟨h1, _⟩ := guardTCB_status_live _ _ h'
      refine ⟨fun hf => h1 ((sleepTCB_status_free _).mpr hf), ?_⟩
      show (guardTCB (k.stacksArr i 0) (sleepTCB (k.tcbs i))).priority = _
      rw [guardTCB_priority, sleepTCB_priority]
    · have h' : (sleepTCB (k.tcbs i)).status ≠ TCB_FREE := h
      exact ⟨fun hf => h' ((sleepTCB_status_free _).mpr hf), sleepTCB_priority _⟩

theorem CheckStackOverflow_live (k : Kernel) (n : Nat) (i : Fin 8)
    (h : ((CheckStackOverflow k n).tcbs i).status ≠ TCB_FREE) :
    (k.tcbs i).status ≠ TCB_FREE ∧
    ((CheckStackOverflow k n).tcbs i).priority = (k.tcbs i).priority := by
  by_cases hn : n < 8
  · have he : CheckStackOverflow k n = _ := CheckStackOverflow_eq k ⟨n, hn⟩
    rw [he] at h ⊢
    have h' : (Function.update k.tcbs ⟨n, hn⟩ (guardTCB _ (k.tcbs ⟨n, hn⟩)) i).status
        ≠ TCB_FREE := h
    show _ ∧ (Function.update k.tcbs ⟨n, hn⟩ (guardTCB _ (k.tcbs ⟨n, hn⟩)) i).priority = _
    by_cases hi : i = ⟨n, hn⟩
    · subst hi
      rw [Function.update_same] at h' ⊢
      exact ⟨(guardTCB_status_live _ _ h').1, guardTCB_priority _ _⟩
    · rw [Function.update_noteq hi] at h' ⊢
      exact ⟨h', rfl⟩
  · rw [CheckStackOverflow_out_of_range k n (by omega)] at h ⊢
    exact ⟨h, rfl⟩

/-- Without guard retirements `RunPt` never refers to a non-Free user slot of priority
255. -/
theorem ReachableSparing_skips_255 (L : Layout) (k : Kernel)
    (h : ReachableSparing L anySlot k) (i : Fin 8) (hi : i ≠ 0)
    (hlive : (k.tcbs i).status ≠ TCB_FREE) (hp : (k.tcbs i).priority = 255) :
    k.RunPt ≠ some i := by
  induction h with
  | init =>
    exfalso
    apply hlive
    revert hi
    fin_cases i
    · intro h0; exact absurd rfl h0
    all_goals intro _; rfl
  | addThread k task priority name hk ih =>
    obtain ⟨_, r, hr, hrl⟩ :=
      ReachableSparing_RunPtLive L k (ReachableSparing_mono L anySlot idleOrRunning
        (fun _ _ _ => trivial) k hk)
    rcases OS_AddThread_cases L k task priority name with h | ⟨i0, _, hfree, h⟩
    · rw [h] at hlive hp ⊢; exact ih hlive hp
    · rw [h] at hlive hp ⊢
      obtain ⟨h1, h2, _⟩ := addBody_tcbs L k i0 task priority name i
      show (addBody L k i0 task priority name).RunPt ≠ some i
      rw [(addBody_frame L k i0 task priority name).1]
      by_cases hii : i = i0
      · rw [hr, hii]
        intro hcon
        rw [Option.some.inj hcon] at hrl
        exact hrl hfree
      · have hl' : ((addBody L k i0 task priority name).tcbs i).status ≠ TCB_FREE := hlive
        have hp' : ((addBody L k i0 task priority name).tcbs i).priority = 255 := hp
        rw [h1, if_neg hii] at hl'
        rw [h2, if_neg hii] at hp'
        exact ih hl' hp'
  | launch k _ ih =>
    unfold OS_Launch at hlive hp ⊢
    split_ifs at hlive hp ⊢
    · exact ih hlive hp
    · rw [OS_Scheduler_tcbs] at hlive hp
      exact OS_Scheduler_skips_255 _ i hi hp (ih hlive hp)
  | sleep k ms hk ih =>
    obtain ⟨_, r, hr, hrl⟩ :=
      ReachableSparing_RunPtLive L k (ReachableSparing_mono L anySlot idleOrRunning
        (fun _ _ _ => trivial) k hk)
    rw [OS_Sleep_RunPt]
    rw [OS_Sleep_priority] at hp
    by_cases hir : i = r
    · subst hir
      exact ih hrl hp
    · rw [hr]
      intro hcon
      exact hir (Option.some.inj hcon).symm
  | scheduler k _ ih =>
    rw [OS_Scheduler_tcbs] at hlive hp
    exact OS_Scheduler_skips_255 k i hi hp (ih hlive hp)
  | tick k _ _ ih =>
    obtain ⟨h1, h2⟩ := OS_TickHandler_live k i hlive
    rw [OS_TickHandler_RunPt]
    exact ih h1 (h2 ▸ hp)
  | check k n _ _ ih =>
    obtain ⟨h1, h2⟩ := CheckStackOverflow_live k n i hlive
    rw [CheckStackOverflow_RunPt]
    exact ih h1 (h2 ▸ hp)
  | write k a b v _ ih => exact ih hlive hp

/-- C19: with `OS_Running` set, a user slot of priority 255 that `RunPt` does not refer
to before `OS_Scheduler` is not the slot `RunPt` refers to afterwards, even when it is
the only candidate; hence in every state reachable from `OS_Init` without a guard
retirement `RunPt` never refers to a registered user task of priority 255. -/
theorem C19_priority_255_user_task_never_selected (L : Layout) :
    (∀ (k : Kernel) (i : Fin 8), k.OS_Running ≠ 0 → 1 ≤ i.val →
      (k.tcbs i).priority = 255 → k.RunPt ≠ some i → (OS_Scheduler k).RunPt ≠ some i) ∧
    (∀ (k : Kernel) (i : Fin 8), ReachableSparing L anySlot k → 1 ≤ i.val →
      (k.tcbs i).status ≠ TCB_FREE → (k.tcbs i).priority = 255 → k.RunPt ≠ some i) := by
  have hne : ∀ i : Fin 8, 1 ≤ i.val → i ≠ 0 := by
    intro i hi h0
    rw [h0] at hi
    exact absurd hi (by decide)
  constructor
  · intro k i _ hi hp hr
    exact OS_Scheduler_skips_255 k i (hne i hi) hp hr
  · intro k i hreach hi hlive hp
    exact ReachableSparing_skips_255 L k hreach i (hne i hi) hlive hp

theorem C19_priority_255_user_task_never_selected_witness :
    (demo255Only.OS_Running ≠ 0 ∧ (demo255Only.tcbs 1).priority = 255 ∧
      (∀ j, Candidate demo255Only j ↔ j = 1) ∧
      (OS_Scheduler demo255Only).RunPt ≠ some 1) ∧
    (ReachableSparing demoLayout anySlot demo255 ∧
      (demo255.tcbs 1).status ≠ TCB_FREE ∧ demo255.RunPt ≠ some 1) :=
  ⟨⟨by decide, by decide, by decide,
    (C19_priority_255_user_task_never_selected demoLayout).1 demo255Only 1
      (by decide) (by decide) (by decide) (by decide)⟩,
   ReachableSparing.launch _ (ReachableSparing.addThread _ _ _ _ ReachableSparing.init),
   by decide,
   (C19_priority_255_user_task_never_selected demoLayout).2 demo255 1
     (ReachableSparing.launch _ (ReachableSparing.addThread _ _ _ _ ReachableSparing.init))
     (by decide) (by decide) (by decide)⟩

/-! ## Successful registration -/

/-- On an increasing list the search loop fills the lowest-indexed Free slot. -/
theorem addLoop_lowest (L : Layout) (k : Kernel) (task : Nat) (priority : Fin 256)
    (name : Nat) (l : List (Fin 8)) (hs : l.Pairwise (· < ·))
    (hret : (addLoop L k task priority name l).2 = 1) :
    ∃ i ∈ l, (k.tcbs i).status = TCB_FREE ∧
      (∀ j ∈ l, j < i → (k.tcbs j).status ≠ TCB_FREE) ∧
      addLoop L k task priority name l = (addBody L k i task priority name, 1) := by
  induction l with
  | nil =>
    have h0 : (addLoop L k task priority name []).2 = 0 := rfl
    rw [h0] at hret
    exact absurd hret (by decide)
  | cons a rest ih =>
    obtain ⟨ha, hrest⟩ := List.pairwise_cons.mp hs
    by_cases hf : (k.tcbs a).status = TCB_FREE
    · refine ⟨a, List.mem_cons_self a rest, hf, ?_, ?_⟩
      · intro j hj hlt
        rcases List.mem_cons.mp hj with h | h
        · rw [h] at hlt; exact absurd hlt (lt_irrefl a)
        · exact absurd (lt_trans (ha j h) hlt) (lt_irrefl a)
      · rw [addLoop, if_pos hf]
    · rw [addLoop, if_neg hf] at hret
      obtain ⟨i, hi, hfree, hlow, heq⟩ := ih hrest hret
      refine ⟨i, List.mem_cons_of_mem a hi, hfree, ?_, ?_⟩
      · intro j hj hlt
        rcases List.mem_cons.mp hj with h | h
        · rw [h]; exact hf
        · exact hlow j h hlt
      · rw [addLoop, if_neg hf, heq]

theorem userSlots_sorted : userSlots.Pairwise (· < ·) := by decide

theorem wrapInt_of_range (x : Int) (hlo : -2147483648 ≤ x) (hhi : x ≤ 2147483647) :
    wrapInt x = x := by
  unfold wrapInt
  omega

/-- C14 (amended): when `OS_AddThread` returns 1 for a non-null entry point, the slot it
filled is the lowest-indexed Free slot among 1..7; afterwards that slot is Active with
the given priority and name, sleep 0 and the stack image of `SetInitialStack` for the
entry point; `ActiveThreads` is the 32-bit `int` result of the increment, one greater
than before whenever it was below `INT_MAX`; status, priority, sleep count and saved
stack pointer of every other slot, `RunPt` and `OS_Running` are unchanged. -/
theorem C14_add_thread_success (L : Layout) (k : Kernel) (task : Nat) (priority : Fin 256)
    (name : Nat) (_htask : task ≠ 0) (halign : L.stacksAddr % 4 = 0)
    (hret : (OS_AddThread L k task priority name).2 = 1) :
    ∃ i : Fin 8, 1 ≤ i.val ∧ (k.tcbs i).status = TCB_FREE ∧
      (∀ j : Fin 8, 1 ≤ j.val → j < i → (k.tcbs j).status ≠ TCB_FREE) ∧
      (((OS_AddThread L k task priority name).1.tcbs i).status = TCB_ACTIVE ∧
       ((OS_AddThread L k task priority name).1.tcbs i).priority = priority ∧
       ((OS_AddThread L k task priority name).1.tcbs i).name = name ∧
       ((OS_AddThread L k task priority name).1.tcbs i).sleep = 0) ∧
      ((OS_AddThread L k task priority name).1.stacksArr i =
          refImage (if wordAddr L i.val 256 % 8 = 0 then 256 else 255) task ∧
       ((OS_AddThread L k task priority name).1.tcbs i).sp =
          wordAddr L i.val ((if wordAddr L i.val 256 % 8 = 0 then 256 else 255) - 16)) ∧
      ((OS_AddThread L k task priority name).1.ActiveThreads
          = wrapInt (k.ActiveThreads + 1) ∧
       (-2147483648 ≤ k.ActiveThreads → k.ActiveThreads < 2147483647 →
        (OS_AddThread L k task priority name).1.ActiveThreads = k.ActiveThreads + 1)) ∧
      (∀ j : Fin 8, j ≠ i →
        ((OS_AddThread L k task priority name).1.tcbs j).status = (k.tcbs j).status ∧
        ((OS_AddThread L k task priority name).1.tcbs j).priority = (k.tcbs j).priority ∧
        ((OS_AddThread L k task priority name).1.tcbs j).sleep = (k.tcbs j).sleep ∧
        ((OS_AddThread L k task priority name).1.tcbs j).sp = (k.tcbs j).sp) ∧
      (OS_AddThread L k task priority name).1.RunPt = k.RunPt ∧
      (OS_AddThread L k task priority name).1.OS_Running = k.OS_Running := by
  have hadd : OS_AddThread L k task priority name =
      addLoop L k task priority name userSlots := by
    unfold OS_AddThread
    rw [if_neg _htask]
  rw [hadd] at hret ⊢
  obtain ⟨i, hi, hfree, hlow, heq⟩ :=
    addLoop_lowest L k task priority name userSlots userSlots_sorted hret
  have hi0 : i ≠ 0 := (mem_userSlots i).mp hi
  have hi1 : 1 ≤ i.val := by
    have : i.val ≠ 0 := fun h => hi0 (Fin.ext h)
    omega
  rw [heq]
  simp only
  rw [addBody_eq]
  have htop := frameTop_eq L i.val halign
  have hT : 16 < (if wordAddr L i.val 256 % 8 = 0 then 256 else 255) ∧
      (if wordAddr L i.val 256 % 8 = 0 then 256 else 255) ≤ 256 := by
    split_ifs <;> omega
  refine ⟨i, hi1, hfree, ?_, ?_, ⟨?_, ?_⟩,
    ⟨rfl, fun hlo hhi => wrapInt_of_range _ (by omega) (by omega)⟩, ?_, rfl, rfl⟩
  · intro j hj hlt
    have hj0 : j ≠ 0 := by
      intro h0
      rw [h0] at hj
      exact absurd hj (by decide)
    exact hlow j ((mem_userSlots j).mpr hj0) hlt
  · simp only [Function.update_noteq hi0, Function.update_same, newTCB, and_self]
  · exact builtStacks_row L k.stacksArr i task _ hT htop
  · simp only [Function.update_noteq hi0, Function.update_same, newTCB]
    rw [htop]
    unfold wordAddr STACKSIZE
    split_ifs <;> omega
  · intro j hj
    by_cases hj0 : j = 0
    · subst hj0
      simp only [Function.update_same, Function.update_noteq hj, and_self]
    · simp only [Function.update_noteq hj0, Function.update_noteq hj, and_self]

theorem C14_add_thread_success_witness :
    (demo533.ActiveThreads = 4 ∧
      (OS_AddThread demoLayout demo533 0x08004001 9 0x08000240).1.ActiveThreads = 5) ∧
    ∃ i : Fin 8, 1 ≤ i.val ∧ (demo533.tcbs i).status = TCB_FREE ∧
      (∀ j : Fin 8, 1 ≤ j.val → j < i → (demo533.tcbs j).status ≠ TCB_FREE) ∧
      (((OS_AddThread demoLayout demo533 0x08004001 9 0x08000240).1.tcbs i).status
          = TCB_ACTIVE ∧
       ((OS_AddThread demoLayout demo533 0x08004001 9 0x08000240).1.tcbs i).priority = 9 ∧
       ((OS_AddThread demoLayout demo533 0x08004001 9 0x08000240).1.tcbs i).name
          = 0x08000240 ∧
       ((OS_AddThread demoLayout demo533 0x08004001 9 0x08000240).1.tcbs i).sleep = 0) ∧
      ((OS_AddThread demoLayout demo533 0x08004001 9 0x08000240).1.stacksArr i =
          refImage (if wordAddr demoLayout i.val 256 % 8 = 0 then 256 else 255) 0x08004001 ∧
       ((OS_AddThread demoLayout demo533 0x08004001 9 0x08000240).1.tcbs i).sp =
          wordAddr demoLayout i.val
            ((if wordAddr demoLayout i.val 256 % 8 = 0 then 256 else 255) - 16)) ∧
      ((OS_AddThread demoLayout demo533 0x08004001 9 0x08000240).1.ActiveThreads
          = wrapInt (demo533.ActiveThreads + 1) ∧
       (-2147483648 ≤ demo533.ActiveThreads → demo533.ActiveThreads < 2147483647 →
        (OS_AddThread demoLayout demo533 0x08004001 9 0x08000240).1.ActiveThreads
          = demo533.ActiveThreads + 1)) ∧
      (∀ j : Fin 8, j ≠ i →
        ((OS_AddThread demoLayout demo533 0x08004001 9 0x08000240).1.tcbs j).status
          = (demo533.tcbs j).status ∧
        ((OS_AddThread demoLayout demo533 0x08004001 9 0x08000240).1.tcbs j).priority
          = (demo533.tcbs j).priority ∧
        ((OS_AddThread demoLayout demo533 0x08004001 9 0x08000240).1.tcbs j).sleep
          = (demo533.tcbs j).sleep ∧
        ((OS_AddThread demoLayout demo533 0x08004001 9 0x08000240).1.tcbs j).sp
          = (demo533.tcbs j).sp) ∧
      (OS_AddThread demoLayout demo533 0x08004001 9 0x08000240).1.RunPt = demo533.RunPt ∧
      (OS_AddThread demoLayout demo533 0x08004001 9 0x08000240).1.OS_Running
        = demo533.OS_Running :=
  ⟨by decide,
   C14_add_thread_success demoLayout demo533 0x08004001 9 0x08000240 (by decide) (by decide)
    (by decide)⟩

/-! ## The ring links -/

theorem ringNext_iterate_stuck (k : Kernel) (h0 : (k.tcbs 0).next = some 1)
    (h1 : (k.tcbs 1).next = some 2) (h2 : (k.tcbs 2).next = some 1) (n : Nat) :
    (ringNext k)^[n + 1] (some 0) = some 1 ∨ (ringNext k)^[n + 1] (some 0) = some 2 := by
  induction n with
  | zero =>
    left
    show ringNext k (some 0) = some 1
    exact h0
  | succ n ih =>
    rw [Function.iterate_succ_apply']
    rcases ih with h | h
    · right
      rw [h]
      exact h1
    · left
      rw [h]
      exact h2

/-- C15 fails on the code: with slots 1 and 2 registered, slot 1 retired by the guard and
a new task registered into the freed slot, the links are 0 → 1 → 2 → 1, so following
`next` from slot 0 never comes back to slot 0 (before the retirement and before the
re-registration the ring was 0 → 2 → 1 → 0). -/
theorem C15_ring_broken_by_reregistration :
    Reachable demoLayout demoReRegistered ∧
    RingOK demoRetired1 ∧
    ((demoReRegistered.tcbs 0).next = some 1 ∧ (demoReRegistered.tcbs 1).next = some 2 ∧
      (demoReRegistered.tcbs 2).next = some 1) ∧
    (∀ n, 1 ≤ n → (ringNext demoReRegistered)^[n] (some 0) ≠ some 0) ∧
    ¬ RingOK demoReRegistered := by
  have h0 : (demoReRegistered.tcbs 0).next = some 1 := by decide
  have h1 : (demoReRegistered.tcbs 1).next = some 2 := by decide
  have h2 : (demoReRegistered.tcbs 2).next = some 1 := by decide
  have hstuck : ∀ n, 1 ≤ n → (ringNext demoReRegistered)^[n] (some 0) ≠ some 0 := by
    intro n hn
    obtain ⟨m, rfl⟩ : ∃ m, n = m + 1 := ⟨n - 1, by omega⟩
    rcases ringNext_iterate_stuck demoReRegistered h0 h1 h2 m with h | h
    · rw [h]; decide
    · rw [h]; decide
  refine ⟨?_, ?_, ⟨h0, h1, h2⟩, hstuck, ?_⟩
  · exact Reachable.addThread _ _ _ _ (Reachable.check _ 1 (Reachable.write _ 1 0 0
      (Reachable.addThread _ _ _ _ (Reachable.addThread _ _ _ _ Reachable.init))))
  · refine ⟨3, by decide, by decide, by decide, ?_⟩
    intro i hi
    have h : i = 0 ∨ i = 2 := by
      revert hi
      revert i
      decide
    rcases h with h | h
    · exact ⟨0, by decide, by rw [h]; rfl⟩
    · exact ⟨1, by decide, by rw [h]; decide⟩
  · rintro ⟨n, hn, _, hback, _⟩
    exact hstuck n hn hback

/-! ## The first candidate of minimum priority -/

theorem schedStep_ScanInv (k : Kernel) (P : Fin 8 → Prop) (b : Best) (i : Fin 8)
    (hlt : ∀ c, P c → c < i) (h : ScanInv k P b) :
    ScanInv k (fun x => P x ∨ x = i) (schedStep k b i) := by
  obtain ⟨hmin, hbest⟩ := h
  unfold schedStep
  by_cases hc : (k.tcbs i).status = TCB_ACTIVE ∧ (k.tcbs i).sleep = 0
  · rw [if_pos hc]
    by_cases hl : (k.tcbs i).priority < b.best_priority
    · rw [if_pos hl]
      refine ⟨?_, ?_⟩
      · rintro c (hP | rfl) hcc
        · exact le_of_lt (lt_of_lt_of_le hl (hmin c hP hcc))
        · exact le_refl _
      · intro j hj
        have hji : i = j := Option.some.inj hj
        subst hji
        refine ⟨Or.inr rfl, hc, rfl, Or.inr ?_⟩
        rintro c (hP | rfl) hcc hpc
        · have := hmin c hP hcc
          rw [hpc] at this
          exact absurd hl (not_lt_of_le this)
        · exact le_refl _
    · rw [if_neg hl]
      by_cases he : (k.tcbs i).priority = b.best_priority ∧ some i = k.RunPt
      · rw [if_pos he]
        refine ⟨?_, ?_⟩
        · rintro c (hP | rfl) hcc
          · exact hmin c hP hcc
          · exact le_of_not_lt hl
        · intro j hj
          have hji : i = j := Option.some.inj hj
          subst hji
          exact ⟨Or.inr rfl, hc, he.1, Or.inl he.2.symm⟩
      · rw [if_neg he]
        refine ⟨?_, ?_⟩
        · rintro c (hP | rfl) hcc
          · exact hmin c hP hcc
          · exact le_of_not_lt hl
        · intro j hj
          obtain ⟨h0, h1, h2, h3⟩ := hbest j hj
          refine ⟨Or.inl h0, h1, h2, ?_⟩
          rcases h3 with h3 | h3
          · exact Or.inl h3
          · right
            rintro c (hP | rfl) hcc hpc
            · exact h3 c hP hcc hpc
            · exact le_of_lt (hlt j h0)
  · rw [if_neg hc]
    refine ⟨?_, ?_⟩
    · rintro c (hP | rfl) hcc
      · exact hmin c hP hcc
      · exact absurd hcc hc
    · intro j hj
      obtain ⟨h0, h1, h2, h3⟩ := hbest j hj
      refine ⟨Or.inl h0, h1, h2, ?_⟩
      rcases h3 with h3 | h3
      · exact Or.inl h3
      · right
        rintro c (hP | rfl) hcc hpc
        · exact h3 c hP hcc hpc
        · exact absurd hcc hc

theorem ScanInv_congr (k : Kernel) (P Q : Fin 8 → Prop) (b : Best) (hPQ : ∀ x, Q x ↔ P x)
    (h : ScanInv k P b) : ScanInv k Q b := by
  obtain ⟨h1, h2⟩ := h
  refine ⟨fun c hc => h1 c ((hPQ c).mp hc), fun j hj => ?_⟩
  obtain ⟨a0, a1, a2, a3⟩ := h2 j hj
  refine ⟨(hPQ j).mpr a0, a1, a2, ?_⟩
  rcases a3 with a3 | a3
  · exact Or.inl a3
  · exact Or.inr (fun c hc => a3 c ((hPQ c).mp hc))

theorem fold_ScanInv (k : Kernel) (rest : List (Fin 8)) (hs : rest.Pairwise (· < ·))
    (P : Fin 8 → Prop) (b : Best) (hlt : ∀ c, P c → ∀ d ∈ rest, c < d)
    (h : ScanInv k P b) :
    ScanInv k (fun x => P x ∨ x ∈ rest) (rest.foldl (schedStep k) b) := by
  induction rest generalizing P b with
  | nil =>
    exact ScanInv_congr k P _ b (fun x => by simp) h
  | cons i rest ih =>
    obtain ⟨hi, hrest⟩ := List.pairwise_cons.mp hs
    have hstep := schedStep_ScanInv k P b i
      (fun c hc => hlt c hc i (List.mem_cons_self i rest)) h
    have := ih hrest (fun x => P x ∨ x = i) (schedStep k b i) (by
      rintro c (hc | rfl) d hd
      · exact hlt c hc d (List.mem_cons_of_mem i hd)
      · exact hi d hd) hstep
    rw [List.foldl_cons]
    refine ScanInv_congr k _ _ _ (fun x => ?_) this
    simp only [List.mem_cons]
    tauto

theorem allSlots_sorted : allSlots.Pairwise (· < ·) := by decide

theorem scan_ScanInv (k : Kernel) : ScanInv k (fun _ => True) (scan k) := by
  have h0 : ScanInv k (fun _ => False) { best := none, best_priority := 255 } :=
    ⟨fun c hc => absurd hc id, fun j hj => by cases hj⟩
  have := fold_ScanInv k allSlots allSlots_sorted (fun _ => False) _
    (fun c hc => absurd hc id) h0
  exact ScanInv_congr k _ _ _ (fun x => by simp [mem_allSlots]) this

/-- C17: in a running kernel whose idle slot 0 is Active and not sleeping, when the slot
`RunPt` refers to is not a candidate of minimum priority number, after `OS_Scheduler`
`RunPt` refers to the lowest-indexed slot among the candidates of minimum priority
number. -/
theorem C17_first_candidate_of_minimum_priority (k : Kernel) (hrun : Running k)
    (hidle : (k.tcbs 0).status = TCB_ACTIVE ∧ (k.tcbs 0).sleep = 0)
    (hnot : ∀ r, k.RunPt = some r →
      ¬ (Candidate k r ∧ ∀ c, Candidate k c → (k.tcbs r).priority ≤ (k.tcbs c).priority)) :
    ∃ i, (OS_Scheduler k).RunPt = some i ∧ Candidate k i ∧
      (∀ c, Candidate k c → (k.tcbs i).priority ≤ (k.tcbs c).priority) ∧
      (∀ c, Candidate k c → (k.tcbs c).priority = (k.tcbs i).priority → i ≤ c) := by
  obtain ⟨hmin, hbest⟩ := scan_ScanInv k
  rw [OS_Scheduler_running k hrun]
  cases hb : (scan k).best with
  | none =>
    have h255 : (scan k).best_priority = 255 := (fold_none k allSlots _ hb).2
    refine ⟨0, rfl, hidle, fun c hc => ?_, fun c _ _ => Fin.zero_le c⟩
    have h1 := hmin c trivial hc
    rw [h255] at h1
    have := (k.tcbs 0).priority.isLt
    rw [Fin.le_def] at h1 ⊢
    have e : ((255 : Fin 256) : Nat) = 255 := rfl
    omega
  | some j =>
    obtain ⟨_, hc, hp, hfirst⟩ := hbest j hb
    have hjmin : ∀ c, Candidate k c → (k.tcbs j).priority ≤ (k.tcbs c).priority := by
      intro c hcc
      rw [hp]
      exact hmin c trivial hcc
    refine ⟨j, rfl, hc, hjmin, ?_⟩
    rcases hfirst with hr | hf
    · exact absurd ⟨hc, hjmin⟩ (hnot j hr)
    · intro c hcc hpc
      exact hf c trivial hcc (hpc.trans hp)

theorem C17_first_candidate_of_minimum_priority_witness :
    Running demoWoken ∧ demoWoken.RunPt = some 1 ∧
    (OS_Scheduler demoWoken).RunPt = some 2 ∧
    ∃ i, (OS_Scheduler demoWoken).RunPt = some i ∧ Candidate demoWoken i ∧
      (∀ c, Candidate demoWoken c →
        (demoWoken.tcbs i).priority ≤ (demoWoken.tcbs c).priority) ∧
      (∀ c, Candidate demoWoken c →
        (demoWoken.tcbs c).priority = (demoWoken.tcbs i).priority → i ≤ c) :=
  ⟨by decide, by decide, by decide,
   C17_first_candidate_of_minimum_priority demoWoken (by decide) (by decide) (by decide)⟩

/-! ## Idempotence of the scheduler -/

/-- When no candidate is below `best_priority`, the scan can only move `best` onto the
running slot. -/
theorem fold_no_lower (k : Kernel) (l : List (Fin 8)) (b : Best)
    (hge : ∀ c, Candidate k c → ¬ (k.tcbs c).priority < b.best_priority)
    (hbest : b.best = none ∨ b.best = k.RunPt) :
    (l.foldl (schedStep k) b).best_priority = b.best_priority ∧
    ((l.foldl (schedStep k) b).best = none ∨ (l.foldl (schedStep k) b).best = k.RunPt) := by
  induction l generalizing b with
  | nil => exact ⟨rfl, hbest⟩
  | cons i rest ih =>
    have hstep : (schedStep k b i).best_priority = b.best_priority ∧
        ((schedStep k b i).best = none ∨ (schedStep k b i).best = k.RunPt) := by
      unfold schedStep
      by_cases hc : (k.tcbs i).status = TCB_ACTIVE ∧ (k.tcbs i).sleep = 0
      · rw [if_pos hc, if_neg (hge i hc)]
        by_cases he : (k.tcbs i).priority = b.best_priority ∧ some i = k.RunPt
        · rw [if_pos he]
          exact ⟨rfl, Or.inr he.2⟩
        · rw [if_neg he]
          exact ⟨rfl, hbest⟩
      · rw [if_neg hc]
        exact ⟨rfl, hbest⟩
    have := ih (schedStep k b i) (by rw [hstep.1]; exact hge) hstep.2
    rw [List.foldl_cons]
    exact ⟨this.1.trans hstep.1, this.2⟩

theorem OS_Scheduler_not_running (k : Kernel) (h : ¬ Running k) : OS_Scheduler k = k := by
  unfold OS_Scheduler
  rw [if_pos]
  unfold Running at h
  by_contra hcon
  exact h ⟨fun h0 => hcon (Or.inl h0), fun h0 => hcon (Or.inr h0)⟩

/-- A second scan, started with `RunPt` on the slot the first scan selected, selects the
same slot. -/
theorem scan_again (k : Kernel) :
    (scan { k with RunPt := some ((scan k).best.getD 0) }).best.getD 0
      = (scan k).best.getD 0 := by
  cases hb : (scan k).best with
  | none =>
    have h255 : (scan k).best_priority = 255 := (fold_none k allSlots _ hb).2
    have hge : ∀ c, Candidate { k with RunPt := some 0 } c →
        ¬ ({ k with RunPt := some 0 }.tcbs c).priority < (255 : Fin 256) := by
      intro c hc
      have h1 : (scan k).best_priority ≤ (k.tcbs c).priority :=
        fold_min k allSlots _ c (mem_allSlots c) hc
      rw [h255] at h1
      exact not_lt_of_le h1
    have := (fold_no_lower { k with RunPt := some 0 } allSlots
      { best := none, best_priority := 255 } hge (Or.inl rfl)).2
    show (scan { k with RunPt := some 0 }).best.getD 0 = 0
    rcases this with h | h
    · have h' : (scan { k with RunPt := some 0 }).best = none := h
      rw [h']; rfl
    · have h' : (scan { k with RunPt := some 0 }).best = some 0 := h
      rw [h']; rfl
  | some j =>
    obtain ⟨hc, hp⟩ := scan_best_candidate k j hb
    have hmin : ∀ c, Candidate { k with RunPt := some j } c →
        ¬ ({ k with RunPt := some j }.tcbs c).priority
          < ({ k with RunPt := some j }.tcbs j).priority := by
      intro c hcc
      have h1 : (scan k).best_priority ≤ (k.tcbs c).priority :=
        fold_min k allSlots _ c (mem_allSlots c) hcc
      show ¬ (k.tcbs c).priority < (k.tcbs j).priority
      rw [hp]
      exact not_lt_of_le h1
    have hle : ({ k with RunPt := some j }.tcbs j).priority ≤ (255 : Fin 256) := by
      rw [Fin.le_def]
      have := (k.tcbs j).priority.isLt
      show ((k.tcbs j).priority : Nat) ≤ 255
      omega
    have := fold_reach { k with RunPt := some j } j rfl hc hmin allSlots (mem_allSlots j)
      { best := none, best_priority := 255 } hle
    show (scan { k with RunPt := some j }).best.getD 0 = j
    have h' : (scan { k with RunPt := some j }).best = some j := this
    rw [h']; rfl

/-- C20: `OS_Scheduler` is idempotent and changes nothing but `RunPt`: running it twice
gives the same kernel data as running it once, and one run leaves every TCB, every stack
word, `ActiveThreads`, `OS_Running` and the overflow counters as they were. -/
theorem C20_scheduler_idempotent (k : Kernel) :
    OS_Scheduler (OS_Scheduler k) = OS_Scheduler k ∧
    OS_Scheduler k = { k with RunPt := (OS_Scheduler k).RunPt } ∧
    (OS_Scheduler k).tcbs = k.tcbs ∧
    (OS_Scheduler k).stacksArr = k.stacksArr ∧
    (OS_Scheduler k).ActiveThreads = k.ActiveThreads ∧
    (OS_Scheduler k).OS_Running = k.OS_Running ∧
    (OS_Scheduler k).stack_overflow_count = k.stack_overflow_count := by
  refine ⟨?_, OS_Scheduler_eq k, ?_, ?_, ?_, ?_, ?_⟩
  · by_cases hrun : Running k
    · have hrun' : Running { k with RunPt := some ((scan k).best.getD 0) } :=
        ⟨hrun.1, Option.some_ne_none _⟩
      rw [OS_Scheduler_running k hrun, OS_Scheduler_running _ hrun', scan_again]
    · rw [OS_Scheduler_not_running k hrun, OS_Scheduler_not_running k hrun]
  all_goals rw [OS_Scheduler_eq]

/-! ## The thread count at `INT_MAX` -/

theorem overflowCycle_ActiveThreads (k : Kernel) (hfree : (k.tcbs 1).status = TCB_FREE) :
    (overflowCycle k).ActiveThreads = wrapInt (k.ActiveThreads + 1) := by
  have he : overflowCycle k = _ := CheckStackOverflow_eq
    (writeStack (OS_AddThread demoLayout k 0x08001001 5 0x08000210).1 1 0 0) 1
  rw [he]
  show (OS_AddThread demoLayout k 0x08001001 5 0x08000210).1.ActiveThreads = _
  rw [OS_AddThread_slot1 demoLayout k _ _ _ (by decide) hfree]
  exact (addBody_frame demoLayout k 1 0x08001001 5 0x08000210).2.1

/-- Every thread count up to `INT_MAX` is reached, with slot 1 Free, by registering into
slot 1 and having the guard retire it again. -/
theorem reachable_thread_count (n : Nat) (hn : n ≤ 2147483646) :
    ∃ k, Reachable demoLayout k ∧ k.ActiveThreads = 1 + (n : Int) ∧
      (k.tcbs 1).status = TCB_FREE := by
  induction n with
  | zero => exact ⟨OS_Init demoLayout boot, Reachable.init, rfl, rfl⟩
  | succ n ih =>
    obtain ⟨k, hr, hc, hf⟩ := ih (by omega)
    refine ⟨overflowCycle k, ?_, ?_, (overflowCycle_step k hf).2.1⟩
    · exact Reachable.check _ 1 (Reachable.write _ 1 0 0 (Reachable.addThread _ _ _ _ hr))
    · rw [overflowCycle_ActiveThreads k hf, hc]
      rw [wrapInt_of_range _ (by omega) (by omega)]
      push_cast
      omega

/-- C14 as stated fails at thread count `INT_MAX`: `OS_AddThread` succeeds and the
increment of the `int` leaves `INT_MIN`, not one more than before; such a state is
reachable from `OS_Init`. -/
theorem C14_thread_count_overflows :
    ((OS_AddThread demoLayout demoMaxThreads 0x08001001 5 0x08000210).2 = 1 ∧
      demoMaxThreads.ActiveThreads = 2147483647 ∧
      (OS_AddThread demoLayout demoMaxThreads 0x08001001 5 0x08000210).1.ActiveThreads
        = -2147483648 ∧
      (OS_AddThread demoLayout demoMaxThreads 0x08001001 5 0x08000210).1.ActiveThreads
        ≠ demoMaxThreads.ActiveThreads + 1) ∧
    ∃ k, Reachable demoLayout k ∧ k.ActiveThreads = 2147483647 ∧
      (OS_AddThread demoLayout k 0x08001001 5 0x08000210).2 = 1 ∧
      (OS_AddThread demoLayout k 0x08001001 5 0x08000210).1.ActiveThreads
        ≠ k.ActiveThreads + 1 := by
  constructor
  · decide
  · obtain ⟨k, hr, hc, hf⟩ := reachable_thread_count 2147483646 (le_refl _)
    have hc' : k.ActiveThreads = 2147483647 := by rw [hc]; norm_num
    refine ⟨k, hr, hc', ?_, ?_⟩
    · rw [OS_AddThread_slot1 demoLayout k _ _ _ (by decide) hf]
    · rw [OS_AddThread_slot1 demoLayout k _ _ _ (by decide) hf]
      show (addBody demoLayout k 1 0x08001001 5 0x08000210).ActiveThreads ≠ _
      rw [(addBody_frame demoLayout k 1 0x08001001 5 0x08000210).2.1, hc']
      decide

end TinyRTOS
